import Mathlib

/-!
# SparkFun MiniGen (AD9837) driver: register protocol engine

A shallow embedding of `src/SparkFun_MiniGen.cpp`.

* `uint16_t` / `uint32_t` values are natural numbers; every narrowing cast of
  the source is an explicit `% 2 ^ w`.  `x &= ~m` on a `uint16_t` is
  `x &&& compl16 m`, and `x |= m` with a 16-bit constant `m` keeps a 16-bit `x`
  within 16 bits, so the stores to `configReg` need no reduction.
* The driver object is the record `MiniGen`; every member function is a
  function `MiniGen → MiniGen`.  Calls into the Arduino `SPI` object and
  `digitalWrite` are recorded, in order, in the field `bus`.
-/

namespace MiniGen

/-! ## Data model -/

/-- Output level handed to `digitalWrite`. -/
inductive Level where
  | LOW
  | HIGH
  deriving DecidableEq, Repr

/-- One call made by the driver into the transport (`SPI` object or
`digitalWrite` on the chip-select pin). -/
inductive BusEvent where
  /-- Call `SPI.beginTransaction( SPISettings( clock, MSBFIRST, SPI_MODE2))`. -/
  | beginTransaction (clock : Nat)
  /-- Call `digitalWrite( pin, level)`. -/
  | digitalWrite (pin : Int) (level : Level)
  /-- Call `SPI.transfer( b)`; the byte read back is not used. -/
  | transfer (b : Nat)
  /-- Call `SPI.endTransaction()`. -/
  | endTransaction
  deriving DecidableEq, Repr

/-- Modelled from the spec: the enumeration `MODE` is declared in the header,
which is not among the sources; the enumerators are the four the source names
in `setMode` (the spec lists sine, triangle, square and square at half
frequency). -/
inductive MODE where
  | TRIANGLE
  | SINE
  | SQUARE
  | SQUARE_2
  deriving DecidableEq, Repr

/-- Modelled from the spec: the enumeration `FREQREG` is declared in the header,
which is not among the sources; a frequency register selector is one of two
(register 0 or 1), named `FREQ0` and `FREQ1` in the source. -/
inductive FREQREG where
  | FREQ0
  | FREQ1
  deriving DecidableEq, Repr

/-- Modelled from the spec: the enumeration `PHASEREG` is declared in the header,
which is not among the sources; a phase register selector is one of two
(register 0 or 1), named `PHASE0` and `PHASE1` in the source. -/
inductive PHASEREG where
  | PHASE0
  | PHASE1
  deriving DecidableEq, Repr

/-- Modelled from the spec: the enumeration `FREQADJUSTMODE` is declared in the
header, which is not among the sources; the granularity is one of `FINE`,
`COARSE`, `FULL`.  `unnamed` stands for a value of the enumeration type that
is none of the three enumerators; the `switch` of `setFreqAdjustMode` sends it
to its `default:` label. -/
inductive FREQADJUSTMODE where
  | FULL
  | COARSE
  | FINE
  | unnamed
  deriving DecidableEq, Repr

end MiniGen

/-- The driver object: the chip-select pin, the shadow of the write-only
configuration register (a `uint16_t`), and the log of transport calls made so
far. -/
structure MiniGen where
  _FSYNCPin : Int
  configReg : Nat
  bus : List MiniGen.BusEvent
  deriving DecidableEq, Repr

namespace MiniGen

/-- The 16-bit complement `~m` of a 16-bit constant, as used in `x &= ~m` on a
`uint16_t`. -/
def compl16 (m : Nat) : Nat := 0xFFFF ^^^ m

/-! ## Private functions (source lines 245-314) -/

/-- Source `writeStart()`: open a bus transaction. -/
def writeStart (g : MiniGen) : MiniGen :=
  { g with bus := g.bus ++ [BusEvent.beginTransaction 10000000] }

/-- Source `writeData( data)`: chip select low, `(byte) (data>>8)`,
`(byte) data`, chip select high. -/
def writeData (data : Nat) (g : MiniGen) : MiniGen :=
  { g with bus := g.bus ++
      [BusEvent.digitalWrite g._FSYNCPin Level.LOW,
       BusEvent.transfer ((data >>> 8) % 256),
       BusEvent.transfer (data % 256),
       BusEvent.digitalWrite g._FSYNCPin Level.HIGH] }

/-- Source `writeEnd()`: close the bus transaction. -/
def writeEnd (g : MiniGen) : MiniGen :=
  { g with bus := g.bus ++ [BusEvent.endTransaction] }

/-- Source `writeConfig( data)`: `data &= ~0xC000; writeData( data);` -/
def writeConfig (data : Nat) (g : MiniGen) : MiniGen :=
  writeData (data &&& compl16 0xC000) g

/-- Source `writeFreq0( data)`: `data &= ~0xC000; data |= 0x4000; writeData( data);` -/
def writeFreq0 (data : Nat) (g : MiniGen) : MiniGen :=
  writeData ((data &&& compl16 0xC000) ||| 0x4000) g

/-- Source `writeFreq1( data)`: `data &= ~0xC000; data |= 0x8000; writeData( data);` -/
def writeFreq1 (data : Nat) (g : MiniGen) : MiniGen :=
  writeData ((data &&& compl16 0xC000) ||| 0x8000) g

/-- Source `writePhase0( data)`: `data &= ~0xF000; data |= 0xC000; writeData( data);` -/
def writePhase0 (data : Nat) (g : MiniGen) : MiniGen :=
  writeData ((data &&& compl16 0xF000) ||| 0xC000) g

/-- Source `writePhase1( data)`: `data &= ~0xF000; data |= 0xE000; writeData( data);` -/
def writePhase1 (data : Nat) (g : MiniGen) : MiniGen :=
  writeData ((data &&& compl16 0xF000) ||| 0xE000) g

/-! ## Public functions (source lines 42-241) -/

/-- Source `setMode( newMode)`: clear D5, D3 and D1 of the shadow, set the bits
of the requested waveform, write the shadow to the configuration register. -/
def setMode (newMode : MODE) (g : MiniGen) : MiniGen :=
  let c := g.configReg &&& compl16 0x002A
  let c := match newMode with
    | MODE.TRIANGLE => c ||| 0x0002
    | MODE.SQUARE_2 => c ||| 0x0020
    | MODE.SQUARE => c ||| 0x0028
    | MODE.SINE => c ||| 0x0000
  let g := { g with configReg := c }
  writeEnd (writeConfig g.configReg (writeStart g))

/-- Source `selectFreqReg( reg)`: clear bit 11 of the shadow for `FREQ0`, set
it otherwise, write the shadow. -/
def selectFreqReg (reg : FREQREG) (g : MiniGen) : MiniGen :=
  let c := if reg = FREQREG.FREQ0 then g.configReg &&& compl16 0x0800
           else g.configReg ||| 0x0800
  let g := { g with configReg := c }
  writeEnd (writeConfig g.configReg (writeStart g))

/-- Source `selectPhaseReg( reg)`: clear bit 10 of the shadow for `PHASE0`, set
it otherwise, write the shadow. -/
def selectPhaseReg (reg : PHASEREG) (g : MiniGen) : MiniGen :=
  let c := if reg = PHASEREG.PHASE0 then g.configReg &&& compl16 0x0400
           else g.configReg ||| 0x0400
  let g := { g with configReg := c }
  writeEnd (writeConfig g.configReg (writeStart g))

/-- Source `setFreqAdjustMode( newMode)`: clear D13 and D12 of the shadow, set
them for the requested granularity (`FULL` shares its statements with the
`default:` label), write the shadow. -/
def setFreqAdjustMode (newMode : FREQADJUSTMODE) (g : MiniGen) : MiniGen :=
  let c := g.configReg &&& compl16 0x3000
  let c := match newMode with
    | FREQADJUSTMODE.COARSE => c ||| 0x1000
    | FREQADJUSTMODE.FINE => c
    | FREQADJUSTMODE.FULL => c ||| 0x2000
    | FREQADJUSTMODE.unnamed => c ||| 0x2000
  let g := { g with configReg := c }
  writeEnd (writeConfig g.configReg (writeStart g))

/-- Source `adjustPhaseShift( reg, newPhase)`. -/
def adjustPhaseShift (reg : PHASEREG) (newPhase : Nat) (g : MiniGen) : MiniGen :=
  let g := writeStart g
  let g := if reg = PHASEREG.PHASE0 then writePhase0 newPhase g
           else writePhase1 newPhase g
  writeEnd g

/-- Source `adjustFreq( reg, uint32_t newFreq)`: the write that assumes
granularity `FULL`; the two words written are `(uint16_t) newFreq` and
`(uint16_t) (newFreq>>14)`. -/
def adjustFreq_u32 (reg : FREQREG) (newFreq : Nat) (g : MiniGen) : MiniGen :=
  let g := writeStart g
  let g := if reg = FREQREG.FREQ0 then
      writeFreq0 ((newFreq >>> 14) % 2 ^ 16) (writeFreq0 (newFreq % 2 ^ 16) g)
    else
      writeFreq1 ((newFreq >>> 14) % 2 ^ 16) (writeFreq1 (newFreq % 2 ^ 16) g)
  writeEnd g

/-- Source `adjustFreq( reg, uint16_t newFreq)`: the one-word write. -/
def adjustFreq_u16 (reg : FREQREG) (newFreq : Nat) (g : MiniGen) : MiniGen :=
  let g := writeStart g
  let g := if reg = FREQREG.FREQ0 then writeFreq0 newFreq g
           else writeFreq1 newFreq g
  writeEnd g

/-- Source `adjustFreq( reg, mode, uint32_t newFreq)`. -/
def adjustFreq_mode_u32 (reg : FREQREG) (mode : FREQADJUSTMODE) (newFreq : Nat)
    (g : MiniGen) : MiniGen :=
  adjustFreq_u32 reg newFreq (setFreqAdjustMode mode g)

/-- Source `adjustFreq( reg, mode, uint16_t newFreq)`. -/
def adjustFreq_mode_u16 (reg : FREQREG) (mode : FREQADJUSTMODE) (newFreq : Nat)
    (g : MiniGen) : MiniGen :=
  adjustFreq_u16 reg newFreq (setFreqAdjustMode mode g)

/-- Source `freqCalc( desiredFrequency)`: `(uint32_t) ( desiredFrequency / 0.0596)`.
The argument is the rational value of the `float`.  The division is taken
exactly (the rounding error of the floating-point quotient is not modelled);
the conversion to `uint32_t` drops the fractional part (`Int.tdiv` rounds
toward zero).  C++ leaves the conversion undefined when the integer part is
outside `0 .. 2 ^ 32 - 1`; there the model yields `0` for a negative and the
low 32 bits for a large integer part. -/
def freqCalc (desiredFrequency : ℚ) : Nat :=
  let q : ℚ := desiredFrequency / (596 / 10000)
  (Int.tdiv q.num q.den).toNat % 2 ^ 32

/-- Source `reset()`. -/
def reset (g : MiniGen) : MiniGen :=
  let defaultFreq := freqCalc 100
  let g := adjustFreq_mode_u32 FREQREG.FREQ0 FREQADJUSTMODE.FULL defaultFreq g
  let g := adjustFreq_mode_u32 FREQREG.FREQ1 FREQADJUSTMODE.FULL defaultFreq g
  let g := adjustPhaseShift PHASEREG.PHASE0 0x0000 g
  let g := adjustPhaseShift PHASEREG.PHASE1 0x0000 g
  writeEnd (writeData 0x0000 (writeData 0x0100 (writeStart g)))

/-- Modelled from the spec: the state of a newly constructed driver.  The
declaration of `configReg` is in the header, which is not among the sources;
the spec has the shadow "initialized to zero at construction time".  The log
starts empty, after the pin set-up of the constructor. -/
def init (FSYNCPin : Int) : MiniGen :=
  { _FSYNCPin := FSYNCPin, configReg := 0, bus := [] }

/-! ## The public interface as data -/

/-- One call of a public member function, with its arguments. -/
inductive Op where
  | reset
  | setMode (newMode : MODE)
  | selectFreqReg (reg : FREQREG)
  | selectPhaseReg (reg : PHASEREG)
  | setFreqAdjustMode (newMode : FREQADJUSTMODE)
  | adjustPhaseShift (reg : PHASEREG) (newPhase : Nat)
  | adjustFreq_mode_u32 (reg : FREQREG) (mode : FREQADJUSTMODE) (newFreq : Nat)
  | adjustFreq_mode_u16 (reg : FREQREG) (mode : FREQADJUSTMODE) (newFreq : Nat)
  | adjustFreq_u32 (reg : FREQREG) (newFreq : Nat)
  | adjustFreq_u16 (reg : FREQREG) (newFreq : Nat)
  deriving DecidableEq, Repr

/-- Perform one call. -/
def Op.run : Op → MiniGen → MiniGen
  | Op.reset => MiniGen.reset
  | Op.setMode m => MiniGen.setMode m
  | Op.selectFreqReg r => MiniGen.selectFreqReg r
  | Op.selectPhaseReg r => MiniGen.selectPhaseReg r
  | Op.setFreqAdjustMode m => MiniGen.setFreqAdjustMode m
  | Op.adjustPhaseShift r p => MiniGen.adjustPhaseShift r p
  | Op.adjustFreq_mode_u32 r m v => MiniGen.adjustFreq_mode_u32 r m v
  | Op.adjustFreq_mode_u16 r m v => MiniGen.adjustFreq_mode_u16 r m v
  | Op.adjustFreq_u32 r v => MiniGen.adjustFreq_u32 r v
  | Op.adjustFreq_u16 r v => MiniGen.adjustFreq_u16 r v

/-- Perform a sequence of calls, first to last. -/
def runOps : List Op → MiniGen → MiniGen
  | [], g => g
  | op :: ops, g => runOps ops (op.run g)

/-! ## The device side of the bus

The AD9837 takes a 16-bit word, most significant byte first, while its FSYNC
input is low.  `Rx` follows a log event by event and collects the words, grouped
by bus transaction. -/

/-- Where the receiver is between two bus events. -/
inductive Line where
  /-- outside a transaction -/
  | idle
  /-- inside a transaction, select line high; the words of this transaction -/
  | opened (ws : List Nat)
  /-- select line low, no byte yet -/
  | sel0 (ws : List Nat)
  /-- select line low, high byte taken -/
  | sel1 (ws : List Nat) (hi : Nat)
  /-- select line low, both bytes taken -/
  | sel2 (ws : List Nat) (hi lo : Nat)
  deriving DecidableEq, Repr

/-- Receiver state: the closed transactions, oldest first, and the line. -/
structure Rx where
  done : List (List Nat)
  line : Line
  deriving DecidableEq, Repr

/-- One bus event seen from the device whose select line is `pin`; `none` when
the event is out of place. -/
def rxStep (pin : Int) (r : Rx) : BusEvent → Option Rx
  | BusEvent.beginTransaction _ =>
    match r.line with
    | Line.idle => some { r with line := Line.opened [] }
    | _ => none
  | BusEvent.digitalWrite p Level.LOW =>
    match r.line with
    | Line.opened ws => if p = pin then some { r with line := Line.sel0 ws } else none
    | _ => none
  | BusEvent.transfer b =>
    match r.line with
    | Line.sel0 ws => some { r with line := Line.sel1 ws b }
    | Line.sel1 ws hi => some { r with line := Line.sel2 ws hi b }
    | _ => none
  | BusEvent.digitalWrite p Level.HIGH =>
    match r.line with
    | Line.sel2 ws hi lo =>
      if p = pin then some { r with line := Line.opened (ws ++ [hi * 256 + lo]) } else none
    | _ => none
  | BusEvent.endTransaction =>
    match r.line with
    | Line.opened ws => some { done := r.done ++ [ws], line := Line.idle }
    | _ => none

/-- Follow a log from receiver state `r`. -/
def rxRun (pin : Int) : Rx → List BusEvent → Option Rx
  | r, [] => some r
  | r, e :: es =>
    match rxStep pin r e with
    | some r1 => rxRun pin r1 es
    | none => none

/-- The transactions of a log, each the list of its words, when the log is a
sequence of complete transactions made of complete word transfers. -/
def transactions (pin : Int) (es : List BusEvent) : Option (List (List Nat)) :=
  match rxRun pin { done := [], line := Line.idle } es with
  | some r => if r.line = Line.idle then some r.done else none
  | none => none

/-- The events a call adds to the log. -/
def emitted (f : MiniGen → MiniGen) (g : MiniGen) : List BusEvent :=
  (f g).bus.drop g.bus.length

/-- A word addressed to the configuration register: bits 15:14 are `00`. -/
def isConfigWord (w : Nat) : Bool := w >>> 14 == 0

/-- The last configuration-register word among the words of a list of
transactions. -/
def lastConfigWord (txs : List (List Nat)) : Option Nat :=
  (txs.flatten.filter isConfigWord).getLast?

/-- The four bus events that carry the 16-bit word `w` to the device on select
line `pin`: select low, high byte, low byte, select high. -/
def frameOf (pin : Int) (w : Nat) : List BusEvent :=
  [BusEvent.digitalWrite pin Level.LOW, BusEvent.transfer ((w >>> 8) % 256),
   BusEvent.transfer (w % 256), BusEvent.digitalWrite pin Level.HIGH]

/-- The bus events of one transaction that carries the words `ws`, in order:
begin, one frame per word, end. -/
def transactionOf (pin : Int) (ws : List Nat) : List BusEvent :=
  [BusEvent.beginTransaction 10000000] ++ ws.flatMap (frameOf pin) ++ [BusEvent.endTransaction]

/-- The calls that send a word to the configuration register: the four
mutators, the two writes with a mode change, and `reset`.  The plain frequency
and phase writes send none. -/
def Op.writesConfig : Op → Bool
  | Op.adjustPhaseShift _ _ => false
  | Op.adjustFreq_u32 _ _ => false
  | Op.adjustFreq_u16 _ _ => false
  | _ => true

/-- The four calls that change a field of the shadow. -/
def Op.isMutator : Op → Bool
  | Op.setMode _ => true
  | Op.selectFreqReg _ => true
  | Op.selectPhaseReg _ => true
  | Op.setFreqAdjustMode _ => true
  | _ => false

/-- The argument of the last `setMode` of a sequence of calls. -/
def lastSetMode (ops : List Op) : Option MODE :=
  (ops.filterMap fun op => match op with
    | Op.setMode m => some m
    | _ => none).getLast?

/-- The argument of the last `selectFreqReg` of a sequence of calls. -/
def lastSelectFreqReg (ops : List Op) : Option FREQREG :=
  (ops.filterMap fun op => match op with
    | Op.selectFreqReg r => some r
    | _ => none).getLast?

/-- The argument of the last `selectPhaseReg` of a sequence of calls. -/
def lastSelectPhaseReg (ops : List Op) : Option PHASEREG :=
  (ops.filterMap fun op => match op with
    | Op.selectPhaseReg r => some r
    | _ => none).getLast?

/-- The argument of the last `setFreqAdjustMode` of a sequence of calls. -/
def lastSetFreqAdjustMode (ops : List Op) : Option FREQADJUSTMODE :=
  (ops.filterMap fun op => match op with
    | Op.setFreqAdjustMode m => some m
    | _ => none).getLast?

/-- The five command-word encoders of the source, by destination. -/
inductive Encoder where
  | config
  | freq0
  | freq1
  | phase0
  | phase1
  deriving DecidableEq, Repr

/-- The private function behind each encoder. -/
def Encoder.write : Encoder → Nat → MiniGen → MiniGen
  | Encoder.config => writeConfig
  | Encoder.freq0 => writeFreq0
  | Encoder.freq1 => writeFreq1
  | Encoder.phase0 => writePhase0
  | Encoder.phase1 => writePhase1

/-- The word the device receives from a call made inside an open transaction,
when the call sends exactly one word. -/
def sentWord (f : MiniGen → MiniGen) (g : MiniGen) : Option Nat :=
  match rxRun g._FSYNCPin { done := [], line := Line.opened [] } (emitted f g) with
  | some { done := [], line := Line.opened [w] } => some w
  | _ => none

/-- The shape of a shadow value built by the mutators from zero: only bits 13,
12, 11, 10, 5, 3 and 1 can be set, bits 13 and 12 are not both set, and bits 5
and 1 are not both set. -/
def ShadowInv (s : Nat) : Prop :=
  (∀ i, s.testBit i = true → i = 13 ∨ i = 12 ∨ i = 11 ∨ i = 10 ∨ i = 5 ∨ i = 3 ∨ i = 1) ∧
  ¬(s.testBit 13 = true ∧ s.testBit 12 = true) ∧
  ¬(s.testBit 5 = true ∧ s.testBit 1 = true)

/-- State `g1` is `g` with the same select line and a log extended by exactly
the events of the transactions `txs`, one after the other, each with at least
one word and every word a 16-bit value. -/
def Sends (g g1 : MiniGen) (txs : List (List Nat)) : Prop :=
  g1._FSYNCPin = g._FSYNCPin ∧
  g1.bus = g.bus ++ txs.flatMap (transactionOf g._FSYNCPin) ∧
  ∀ ws ∈ txs, ws ≠ [] ∧ ∀ w ∈ ws, w < 65536

/-- State `g1` is `g` with the same select line and a log extended by events
that the device receives, from outside a transaction, as exactly the closed
transactions `txs`. -/
def Delivers (g g1 : MiniGen) (txs : List (List Nat)) : Prop :=
  g1._FSYNCPin = g._FSYNCPin ∧
  ∃ es, g1.bus = g.bus ++ es ∧
    ∀ done, rxRun g._FSYNCPin { done := done, line := Line.idle } es
      = some { done := done ++ txs, line := Line.idle }

/-! ## Arithmetic of the masks -/

theorem compl16_C000 : compl16 0xC000 = 2 ^ 14 - 1 := by decide

theorem compl16_F000 : compl16 0xF000 = 2 ^ 12 - 1 := by decide

theorem and_compl16_C000 (d : Nat) : d &&& compl16 0xC000 = d % 16384 := by
  rw [compl16_C000, Nat.and_pow_two_sub_one_eq_mod]

theorem and_compl16_F000 (d : Nat) : d &&& compl16 0xF000 = d % 4096 := by
  rw [compl16_F000, Nat.and_pow_two_sub_one_eq_mod]

theorem and_3FFF (d : Nat) : d &&& 0x3FFF = d % 16384 :=
  Nat.and_pow_two_sub_one_eq_mod d 14

theorem and_0FFF (d : Nat) : d &&& 0x0FFF = d % 4096 :=
  Nat.and_pow_two_sub_one_eq_mod d 12

theorem or_4000 (x : Nat) (h : x < 16384) : 0x4000 ||| x = 16384 + x := by
  have e := Nat.mul_add_lt_is_or (i := 14) (b := x) (by simpa using h) 1
  simpa using e.symm

theorem or_8000 (x : Nat) (h : x < 16384) : 0x8000 ||| x = 32768 + x := by
  have e := Nat.mul_add_lt_is_or (i := 14) (b := x) (by simpa using h) 2
  simpa using e.symm

theorem or_C000 (x : Nat) (h : x < 4096) : 0xC000 ||| x = 49152 + x := by
  have e := Nat.mul_add_lt_is_or (i := 12) (b := x) (by simpa using h) 12
  simpa using e.symm

theorem or_E000 (x : Nat) (h : x < 4096) : 0xE000 ||| x = 57344 + x := by
  have e := Nat.mul_add_lt_is_or (i := 12) (b := x) (by simpa using h) 14
  simpa using e.symm

/-- The two bytes of `writeData` put together again give the word. -/
theorem bytes_word (w : Nat) (h : w < 65536) : (w >>> 8) % 256 * 256 + w % 256 = w := by
  rw [Nat.shiftRight_eq_div_pow]
  omega

/-! ## What one call adds to the log -/

theorem emitted_of_bus {f : MiniGen → MiniGen} {g : MiniGen} {es : List BusEvent}
    (h : (f g).bus = g.bus ++ es) : emitted f g = es := by
  unfold emitted
  rw [h, List.drop_left]

/-- The frame of one `writeData`, seen by the receiver inside a transaction,
adds the word to the transaction. -/
theorem rxRun_frame (pin : Int) (done : List (List Nat)) (ws : List Nat) (w : Nat)
    (h : w < 65536) :
    rxRun pin { done := done, line := Line.opened ws }
      [BusEvent.digitalWrite pin Level.LOW, BusEvent.transfer ((w >>> 8) % 256),
       BusEvent.transfer (w % 256), BusEvent.digitalWrite pin Level.HIGH]
      = some { done := done, line := Line.opened (ws ++ [w]) } := by
  simp [rxRun, rxStep, bytes_word w h]

/-- One `writeData` inside an open transaction delivers its word. -/
theorem rx_writeData (g : MiniGen) (done : List (List Nat)) (ws : List Nat) (w : Nat)
    (h : w < 65536) :
    rxRun g._FSYNCPin { done := done, line := Line.opened ws } (emitted (writeData w) g)
      = some { done := done, line := Line.opened (ws ++ [w]) } := by
  have e : emitted (writeData w) g = _ :=
    emitted_of_bus (f := writeData w) (g := g) rfl
  rw [e]
  exact rxRun_frame _ _ _ _ h

/-! ## C1: the command-word encoders -/

/-- C1: for every payload `d`, inside an open transaction each encoder
delivers exactly one word to the device: `writeConfig` the word `d & 0x3FFF`
(bits 15:14 = 00), `writeFreq0` the word `0x4000 | (d & 0x3FFF)` (bits 15:14 =
01), `writeFreq1` the word `0x8000 | (d & 0x3FFF)` (bits 15:14 = 10),
`writePhase0` the word `0xC000 | (d & 0x0FFF)` (bits 15:12 = 1100) and
`writePhase1` the word `0xE000 | (d & 0x0FFF)` (bits 15:12 = 1110); the bits
below the tag are the low bits of `d`, and the tag does not depend on `d`. -/
theorem encoder_words (d : Nat) (g : MiniGen) :
    (rxRun g._FSYNCPin { done := [], line := Line.opened [] } (emitted (writeConfig d) g)
        = some { done := [], line := Line.opened [d &&& 0x3FFF] }
      ∧ (d &&& 0x3FFF) >>> 14 = 0) ∧
    (rxRun g._FSYNCPin { done := [], line := Line.opened [] } (emitted (writeFreq0 d) g)
        = some { done := [], line := Line.opened [0x4000 ||| (d &&& 0x3FFF)] }
      ∧ (0x4000 ||| (d &&& 0x3FFF)) >>> 14 = 1
      ∧ (0x4000 ||| (d &&& 0x3FFF)) &&& 0x3FFF = d &&& 0x3FFF) ∧
    (rxRun g._FSYNCPin { done := [], line := Line.opened [] } (emitted (writeFreq1 d) g)
        = some { done := [], line := Line.opened [0x8000 ||| (d &&& 0x3FFF)] }
      ∧ (0x8000 ||| (d &&& 0x3FFF)) >>> 14 = 2
      ∧ (0x8000 ||| (d &&& 0x3FFF)) &&& 0x3FFF = d &&& 0x3FFF) ∧
    (rxRun g._FSYNCPin { done := [], line := Line.opened [] } (emitted (writePhase0 d) g)
        = some { done := [], line := Line.opened [0xC000 ||| (d &&& 0x0FFF)] }
      ∧ (0xC000 ||| (d &&& 0x0FFF)) >>> 12 = 12
      ∧ (0xC000 ||| (d &&& 0x0FFF)) &&& 0x0FFF = d &&& 0x0FFF) ∧
    (rxRun g._FSYNCPin { done := [], line := Line.opened [] } (emitted (writePhase1 d) g)
        = some { done := [], line := Line.opened [0xE000 ||| (d &&& 0x0FFF)] }
      ∧ (0xE000 ||| (d &&& 0x0FFF)) >>> 12 = 14
      ∧ (0xE000 ||| (d &&& 0x0FFF)) &&& 0x0FFF = d &&& 0x0FFF) := by
  have h14 : d % 16384 < 16384 := Nat.mod_lt _ (by decide)
  have h12 : d % 4096 < 4096 := Nat.mod_lt _ (by decide)
  have c0 : d &&& compl16 0xC000 = d &&& 0x3FFF := by rw [and_compl16_C000, and_3FFF]
  have c1 : (d &&& compl16 0xC000) ||| 0x4000 = 0x4000 ||| (d &&& 0x3FFF) := by
    rw [c0, Nat.lor_comm]
  have c2 : (d &&& compl16 0xC000) ||| 0x8000 = 0x8000 ||| (d &&& 0x3FFF) := by
    rw [c0, Nat.lor_comm]
  have p0 : d &&& compl16 0xF000 = d &&& 0x0FFF := by rw [and_compl16_F000, and_0FFF]
  have c3 : (d &&& compl16 0xF000) ||| 0xC000 = 0xC000 ||| (d &&& 0x0FFF) := by
    rw [p0, Nat.lor_comm]
  have c4 : (d &&& compl16 0xF000) ||| 0xE000 = 0xE000 ||| (d &&& 0x0FFF) := by
    rw [p0, Nat.lor_comm]
  have w0 : d &&& 0x3FFF < 65536 := by rw [and_3FFF]; omega
  have w1 : 0x4000 ||| (d &&& 0x3FFF) < 65536 := by rw [and_3FFF, or_4000 _ h14]; omega
  have w2 : 0x8000 ||| (d &&& 0x3FFF) < 65536 := by rw [and_3FFF, or_8000 _ h14]; omega
  have w3 : 0xC000 ||| (d &&& 0x0FFF) < 65536 := by rw [and_0FFF, or_C000 _ h12]; omega
  have w4 : 0xE000 ||| (d &&& 0x0FFF) < 65536 := by rw [and_0FFF, or_E000 _ h12]; omega
  have r0 := rx_writeData g [] [] _ w0
  have r1 := rx_writeData g [] [] _ w1
  have r2 := rx_writeData g [] [] _ w2
  have r3 := rx_writeData g [] [] _ w3
  have r4 := rx_writeData g [] [] _ w4
  refine ⟨⟨?_, ?_⟩, ⟨?_, ?_, ?_⟩, ⟨?_, ?_, ?_⟩, ⟨?_, ?_, ?_⟩, ⟨?_, ?_, ?_⟩⟩
  · have hf : writeConfig d = writeData (d &&& 0x3FFF) := funext fun x => by simp only [writeConfig, c0]
    rw [hf]; exact r0
  · rw [and_3FFF, Nat.shiftRight_eq_div_pow]; omega
  · have hf : writeFreq0 d = writeData (0x4000 ||| (d &&& 0x3FFF)) := funext fun x => by simp only [writeFreq0, c1]
    rw [hf]; exact r1
  · rw [and_3FFF, or_4000 _ h14, Nat.shiftRight_eq_div_pow]; omega
  · rw [and_3FFF, and_3FFF, or_4000 _ h14]; omega
  · have hf : writeFreq1 d = writeData (0x8000 ||| (d &&& 0x3FFF)) := funext fun x => by simp only [writeFreq1, c2]
    rw [hf]; exact r2
  · rw [and_3FFF, or_8000 _ h14, Nat.shiftRight_eq_div_pow]; omega
  · rw [and_3FFF, and_3FFF, or_8000 _ h14]; omega
  · have hf : writePhase0 d = writeData (0xC000 ||| (d &&& 0x0FFF)) := funext fun x => by simp only [writePhase0, c3]
    rw [hf]; exact r3
  · rw [and_0FFF, or_C000 _ h12, Nat.shiftRight_eq_div_pow]; omega
  · rw [and_0FFF, and_0FFF, or_C000 _ h12]; omega
  · have hf : writePhase1 d = writeData (0xE000 ||| (d &&& 0x0FFF)) := funext fun x => by simp only [writePhase1, c4]
    rw [hf]; exact r4
  · rw [and_0FFF, or_E000 _ h12, Nat.shiftRight_eq_div_pow]; omega
  · rw [and_0FFF, and_0FFF, or_E000 _ h12]; omega

/-! ## Transactions on the bus -/

theorem rxRun_append (pin : Int) (r : Rx) (es fs : List BusEvent) :
    rxRun pin r (es ++ fs) = (rxRun pin r es).bind (fun r1 => rxRun pin r1 fs) := by
  induction es generalizing r with
  | nil => rfl
  | cons e es ih =>
    simp only [List.cons_append, rxRun]
    cases rxStep pin r e with
    | none => rfl
    | some r1 => exact ih r1

theorem rxRun_frames (pin : Int) (done : List (List Nat)) (ws vs : List Nat)
    (h : ∀ w ∈ vs, w < 65536) :
    rxRun pin { done := done, line := Line.opened ws } (vs.flatMap (frameOf pin))
      = some { done := done, line := Line.opened (ws ++ vs) } := by
  induction vs generalizing ws with
  | nil => simp [rxRun]
  | cons v vs ih =>
    have hv : v < 65536 := h v (List.mem_cons_self _ _)
    have hvs : ∀ w ∈ vs, w < 65536 := fun w hw => h w (List.mem_cons_of_mem _ hw)
    rw [List.flatMap_cons, rxRun_append]
    have e := rxRun_frame pin done ws v hv
    unfold frameOf
    rw [e]
    simp only [Option.bind]
    have e2 := ih (ws ++ [v]) hvs
    simpa [frameOf] using e2

/-- A transaction of 16-bit words, followed from outside a transaction, is
received as one more closed transaction with exactly these words. -/
theorem rxRun_transactionOf (pin : Int) (done : List (List Nat)) (ws : List Nat)
    (h : ∀ w ∈ ws, w < 65536) :
    rxRun pin { done := done, line := Line.idle } (transactionOf pin ws)
      = some { done := done ++ [ws], line := Line.idle } := by
  unfold transactionOf
  rw [rxRun_append, rxRun_append]
  have e := rxRun_frames pin done [] ws h
  simp only [rxRun, rxStep, Option.bind, e, List.nil_append]

theorem transactions_transactionOf (pin : Int) (ws : List Nat) (h : ∀ w ∈ ws, w < 65536) :
    transactions pin (transactionOf pin ws) = some [ws] := by
  unfold transactions
  rw [rxRun_transactionOf pin [] ws h]
  rfl

/-! ## The four mutators of the shadow -/

theorem setMode_configReg (m : MODE) (g : MiniGen) :
    (setMode m g).configReg =
      match m with
      | MODE.TRIANGLE => (g.configReg &&& compl16 0x002A) ||| 0x0002
      | MODE.SQUARE_2 => (g.configReg &&& compl16 0x002A) ||| 0x0020
      | MODE.SQUARE => (g.configReg &&& compl16 0x002A) ||| 0x0028
      | MODE.SINE => (g.configReg &&& compl16 0x002A) ||| 0x0000 := by
  cases m <;> rfl

theorem selectFreqReg_configReg (r : FREQREG) (g : MiniGen) :
    (selectFreqReg r g).configReg =
      match r with
      | FREQREG.FREQ0 => g.configReg &&& compl16 0x0800
      | FREQREG.FREQ1 => g.configReg ||| 0x0800 := by
  cases r <;> rfl

theorem selectPhaseReg_configReg (r : PHASEREG) (g : MiniGen) :
    (selectPhaseReg r g).configReg =
      match r with
      | PHASEREG.PHASE0 => g.configReg &&& compl16 0x0400
      | PHASEREG.PHASE1 => g.configReg ||| 0x0400 := by
  cases r <;> rfl

theorem setFreqAdjustMode_configReg (m : FREQADJUSTMODE) (g : MiniGen) :
    (setFreqAdjustMode m g).configReg =
      match m with
      | FREQADJUSTMODE.COARSE => (g.configReg &&& compl16 0x3000) ||| 0x1000
      | FREQADJUSTMODE.FINE => g.configReg &&& compl16 0x3000
      | FREQADJUSTMODE.FULL => (g.configReg &&& compl16 0x3000) ||| 0x2000
      | FREQADJUSTMODE.unnamed => (g.configReg &&& compl16 0x3000) ||| 0x2000 := by
  cases m <;> rfl

theorem setMode_bus (m : MODE) (g : MiniGen) :
    (setMode m g).bus
      = g.bus ++ transactionOf g._FSYNCPin [(setMode m g).configReg &&& 0x3FFF] := by
  simp only [setMode, writeEnd, writeConfig, writeData, writeStart, transactionOf, frameOf,
    and_compl16_C000, and_3FFF, List.flatMap_cons, List.flatMap_nil, List.append_assoc,
    List.append_nil, List.cons_append, List.nil_append]

theorem selectFreqReg_bus (r : FREQREG) (g : MiniGen) :
    (selectFreqReg r g).bus
      = g.bus ++ transactionOf g._FSYNCPin [(selectFreqReg r g).configReg &&& 0x3FFF] := by
  simp only [selectFreqReg, writeEnd, writeConfig, writeData, writeStart, transactionOf, frameOf,
    and_compl16_C000, and_3FFF, List.flatMap_cons, List.flatMap_nil, List.append_assoc,
    List.append_nil, List.cons_append, List.nil_append]

theorem selectPhaseReg_bus (r : PHASEREG) (g : MiniGen) :
    (selectPhaseReg r g).bus
      = g.bus ++ transactionOf g._FSYNCPin [(selectPhaseReg r g).configReg &&& 0x3FFF] := by
  simp only [selectPhaseReg, writeEnd, writeConfig, writeData, writeStart, transactionOf, frameOf,
    and_compl16_C000, and_3FFF, List.flatMap_cons, List.flatMap_nil, List.append_assoc,
    List.append_nil, List.cons_append, List.nil_append]

theorem setFreqAdjustMode_bus (m : FREQADJUSTMODE) (g : MiniGen) :
    (setFreqAdjustMode m g).bus
      = g.bus ++ transactionOf g._FSYNCPin [(setFreqAdjustMode m g).configReg &&& 0x3FFF] := by
  simp only [setFreqAdjustMode, writeEnd, writeConfig, writeData, writeStart, transactionOf,
    frameOf, and_compl16_C000, and_3FFF, List.flatMap_cons, List.flatMap_nil, List.append_assoc,
    List.append_nil, List.cons_append, List.nil_append]

theorem setMode_pin (m : MODE) (g : MiniGen) : (setMode m g)._FSYNCPin = g._FSYNCPin := rfl

theorem selectFreqReg_pin (r : FREQREG) (g : MiniGen) :
    (selectFreqReg r g)._FSYNCPin = g._FSYNCPin := rfl

theorem selectPhaseReg_pin (r : PHASEREG) (g : MiniGen) :
    (selectPhaseReg r g)._FSYNCPin = g._FSYNCPin := rfl

theorem setFreqAdjustMode_pin (m : FREQADJUSTMODE) (g : MiniGen) :
    (setFreqAdjustMode m g)._FSYNCPin = g._FSYNCPin := rfl

/-! ## The writes to the frequency and phase registers -/

theorem freq0_word (d : Nat) :
    (d &&& compl16 0xC000) ||| 0x4000 = 0x4000 ||| (d &&& 0x3FFF) := by
  rw [and_compl16_C000, and_3FFF, Nat.lor_comm]

theorem freq1_word (d : Nat) :
    (d &&& compl16 0xC000) ||| 0x8000 = 0x8000 ||| (d &&& 0x3FFF) := by
  rw [and_compl16_C000, and_3FFF, Nat.lor_comm]

theorem phase0_word (d : Nat) :
    (d &&& compl16 0xF000) ||| 0xC000 = 0xC000 ||| (d &&& 0x0FFF) := by
  rw [and_compl16_F000, and_0FFF, Nat.lor_comm]

theorem phase1_word (d : Nat) :
    (d &&& compl16 0xF000) ||| 0xE000 = 0xE000 ||| (d &&& 0x0FFF) := by
  rw [and_compl16_F000, and_0FFF, Nat.lor_comm]

theorem low_half (v : Nat) : (v % 65536) &&& 0x3FFF = v &&& 0x3FFF := by
  rw [and_3FFF, and_3FFF]; omega

theorem high_half (v : Nat) : ((v >>> 14) % 65536) &&& 0x3FFF = (v >>> 14) &&& 0x3FFF := by
  rw [and_3FFF, and_3FFF]; omega

theorem adjustPhaseShift_bus (r : PHASEREG) (p : Nat) (g : MiniGen) :
    (adjustPhaseShift r p g).bus
      = g.bus ++ transactionOf g._FSYNCPin
          [if r = PHASEREG.PHASE0 then 0xC000 ||| (p &&& 0x0FFF) else 0xE000 ||| (p &&& 0x0FFF)] := by
  cases r <;>
  simp [adjustPhaseShift, writeEnd, writePhase0, writePhase1, writeData, writeStart,
    transactionOf, frameOf, phase0_word, phase1_word]

theorem adjustFreq_u32_bus (r : FREQREG) (v : Nat) (g : MiniGen) :
    (adjustFreq_u32 r v g).bus
      = g.bus ++ transactionOf g._FSYNCPin
          (if r = FREQREG.FREQ0 then
            [0x4000 ||| (v &&& 0x3FFF), 0x4000 ||| ((v >>> 14) &&& 0x3FFF)]
           else [0x8000 ||| (v &&& 0x3FFF), 0x8000 ||| ((v >>> 14) &&& 0x3FFF)]) := by
  cases r <;>
  simp [adjustFreq_u32, writeEnd, writeFreq0, writeFreq1, writeData, writeStart,
    transactionOf, frameOf, freq0_word, freq1_word, low_half, high_half]

theorem adjustFreq_u16_bus (r : FREQREG) (h : Nat) (g : MiniGen) :
    (adjustFreq_u16 r h g).bus
      = g.bus ++ transactionOf g._FSYNCPin
          [if r = FREQREG.FREQ0 then 0x4000 ||| (h &&& 0x3FFF) else 0x8000 ||| (h &&& 0x3FFF)] := by
  cases r <;>
  simp [adjustFreq_u16, writeEnd, writeFreq0, writeFreq1, writeData, writeStart,
    transactionOf, frameOf, freq0_word, freq1_word]

theorem adjustPhaseShift_configReg (r : PHASEREG) (p : Nat) (g : MiniGen) :
    (adjustPhaseShift r p g).configReg = g.configReg := by
  cases r <;> rfl

theorem adjustFreq_u32_configReg (r : FREQREG) (v : Nat) (g : MiniGen) :
    (adjustFreq_u32 r v g).configReg = g.configReg := by
  cases r <;> rfl

theorem adjustFreq_u16_configReg (r : FREQREG) (h : Nat) (g : MiniGen) :
    (adjustFreq_u16 r h g).configReg = g.configReg := by
  cases r <;> rfl

theorem adjustPhaseShift_pin (r : PHASEREG) (p : Nat) (g : MiniGen) :
    (adjustPhaseShift r p g)._FSYNCPin = g._FSYNCPin := by
  cases r <;> rfl

theorem adjustFreq_u32_pin (r : FREQREG) (v : Nat) (g : MiniGen) :
    (adjustFreq_u32 r v g)._FSYNCPin = g._FSYNCPin := by
  cases r <;> rfl

theorem adjustFreq_u16_pin (r : FREQREG) (h : Nat) (g : MiniGen) :
    (adjustFreq_u16 r h g)._FSYNCPin = g._FSYNCPin := by
  cases r <;> rfl

/-! ## C5: the waveform truth table -/

/-- C5: for every shadow value and every mode, `setMode` stores
`(s & ~0x002A) | pattern` with pattern `0x0000` for `SINE`, `0x0002` for
`TRIANGLE`, `0x0020` for `SQUARE_2` and `0x0028` for `SQUARE`, so that bits
(5, 3, 1) of the new shadow are (0,0,0), (0,0,1), (1,0,0) and (1,1,0). -/
theorem setMode_truth_table (g : MiniGen) :
    ((setMode MODE.SINE g).configReg = (g.configReg &&& compl16 0x002A) ||| 0x0000
      ∧ (setMode MODE.SINE g).configReg.testBit 5 = false
      ∧ (setMode MODE.SINE g).configReg.testBit 3 = false
      ∧ (setMode MODE.SINE g).configReg.testBit 1 = false) ∧
    ((setMode MODE.TRIANGLE g).configReg = (g.configReg &&& compl16 0x002A) ||| 0x0002
      ∧ (setMode MODE.TRIANGLE g).configReg.testBit 5 = false
      ∧ (setMode MODE.TRIANGLE g).configReg.testBit 3 = false
      ∧ (setMode MODE.TRIANGLE g).configReg.testBit 1 = true) ∧
    ((setMode MODE.SQUARE_2 g).configReg = (g.configReg &&& compl16 0x002A) ||| 0x0020
      ∧ (setMode MODE.SQUARE_2 g).configReg.testBit 5 = true
      ∧ (setMode MODE.SQUARE_2 g).configReg.testBit 3 = false
      ∧ (setMode MODE.SQUARE_2 g).configReg.testBit 1 = false) ∧
    ((setMode MODE.SQUARE g).configReg = (g.configReg &&& compl16 0x002A) ||| 0x0028
      ∧ (setMode MODE.SQUARE g).configReg.testBit 5 = true
      ∧ (setMode MODE.SQUARE g).configReg.testBit 3 = true
      ∧ (setMode MODE.SQUARE g).configReg.testBit 1 = false) := by
  simp only [setMode_configReg, Nat.testBit_or, Nat.testBit_and]
  simp [compl16, Nat.testBit_to_div_mod]

/-! ## C6: the granularity bits -/

/-- The two-bit field D13:D12 of a word, from its two bits. -/
theorem field_13_12 (x : Nat) :
    (x >>> 12) % 4 = (if x.testBit 13 then 2 else 0) + (if x.testBit 12 then 1 else 0) := by
  simp only [Nat.testBit_to_div_mod, Nat.shiftRight_eq_div_pow, decide_eq_true_eq]
  split_ifs <;> omega

/-- C6: for every shadow value, after `setFreqAdjustMode( m)` bits 13:12 of the
shadow are 00 for `FINE`, 01 for `COARSE` and 10 for `FULL`; a value that is
none of the three enumerators gives the same shadow as `FULL`; and for no
argument are both bits set. -/
theorem setFreqAdjustMode_bits (g : MiniGen) :
    (((setFreqAdjustMode FREQADJUSTMODE.FINE g).configReg >>> 12) % 4 = 0
      ∧ (setFreqAdjustMode FREQADJUSTMODE.FINE g).configReg.testBit 13 = false
      ∧ (setFreqAdjustMode FREQADJUSTMODE.FINE g).configReg.testBit 12 = false) ∧
    (((setFreqAdjustMode FREQADJUSTMODE.COARSE g).configReg >>> 12) % 4 = 1
      ∧ (setFreqAdjustMode FREQADJUSTMODE.COARSE g).configReg.testBit 13 = false
      ∧ (setFreqAdjustMode FREQADJUSTMODE.COARSE g).configReg.testBit 12 = true) ∧
    (((setFreqAdjustMode FREQADJUSTMODE.FULL g).configReg >>> 12) % 4 = 2
      ∧ (setFreqAdjustMode FREQADJUSTMODE.FULL g).configReg.testBit 13 = true
      ∧ (setFreqAdjustMode FREQADJUSTMODE.FULL g).configReg.testBit 12 = false) ∧
    setFreqAdjustMode FREQADJUSTMODE.unnamed g = setFreqAdjustMode FREQADJUSTMODE.FULL g ∧
    (∀ m : FREQADJUSTMODE, ((setFreqAdjustMode m g).configReg >>> 12) % 4 ≠ 3) := by
  have b13 : ∀ m : FREQADJUSTMODE, (setFreqAdjustMode m g).configReg.testBit 13
      = (decide (m = FREQADJUSTMODE.FULL) || decide (m = FREQADJUSTMODE.unnamed)) := by
    intro m
    cases m <;>
    simp only [setFreqAdjustMode_configReg, Nat.testBit_or, Nat.testBit_and] <;>
    simp [compl16, Nat.testBit_to_div_mod]
  have b12 : ∀ m : FREQADJUSTMODE, (setFreqAdjustMode m g).configReg.testBit 12
      = decide (m = FREQADJUSTMODE.COARSE) := by
    intro m
    cases m <;>
    simp only [setFreqAdjustMode_configReg, Nat.testBit_or, Nat.testBit_and] <;>
    simp [compl16, Nat.testBit_to_div_mod]
  refine ⟨⟨?_, ?_, ?_⟩, ⟨?_, ?_, ?_⟩, ⟨?_, ?_, ?_⟩, rfl, ?_⟩
  · rw [field_13_12, b13, b12]; decide
  · rw [b13]; decide
  · rw [b12]; decide
  · rw [field_13_12, b13, b12]; decide
  · rw [b13]; decide
  · rw [b12]; decide
  · rw [field_13_12, b13, b12]; decide
  · rw [b13]; decide
  · rw [b12]; decide
  · intro m
    rw [field_13_12, b13, b12]
    cases m <;> decide

/-! ## C3: each mutator changes only its own bits -/

theorem testBit_ge16 {c i : Nat} (hc : c < 65536) (hi : 16 ≤ i) : c.testBit i = false := by
  apply Nat.testBit_lt_two_pow
  have h16 : (2 : Nat) ^ 16 ≤ 2 ^ i := Nat.pow_le_pow_right (by decide) hi
  omega

theorem and_or_lt {n : Nat} (s k v : Nat) (hs : s < 2 ^ n) (hv : v < 2 ^ n) :
    (s &&& k) ||| v < 2 ^ n :=
  Nat.or_lt_two_pow (Nat.lt_of_le_of_lt Nat.and_le_left hs) hv

theorem setMode_lt {n : Nat} (hn : 6 ≤ n) (m : MODE) (g : MiniGen) (h : g.configReg < 2 ^ n) :
    (setMode m g).configReg < 2 ^ n := by
  have h6 : (2 : Nat) ^ 6 ≤ 2 ^ n := Nat.pow_le_pow_right (by decide) hn
  rw [setMode_configReg]
  cases m <;> exact and_or_lt _ _ _ h (by omega)

theorem selectFreqReg_lt {n : Nat} (hn : 12 ≤ n) (r : FREQREG) (g : MiniGen)
    (h : g.configReg < 2 ^ n) : (selectFreqReg r g).configReg < 2 ^ n := by
  have h12 : (2 : Nat) ^ 12 ≤ 2 ^ n := Nat.pow_le_pow_right (by decide) hn
  rw [selectFreqReg_configReg]
  cases r
  · exact Nat.lt_of_le_of_lt Nat.and_le_left h
  · exact Nat.or_lt_two_pow h (by omega)

theorem selectPhaseReg_lt {n : Nat} (hn : 11 ≤ n) (r : PHASEREG) (g : MiniGen)
    (h : g.configReg < 2 ^ n) : (selectPhaseReg r g).configReg < 2 ^ n := by
  have h11 : (2 : Nat) ^ 11 ≤ 2 ^ n := Nat.pow_le_pow_right (by decide) hn
  rw [selectPhaseReg_configReg]
  cases r
  · exact Nat.lt_of_le_of_lt Nat.and_le_left h
  · exact Nat.or_lt_two_pow h (by omega)

theorem setFreqAdjustMode_lt {n : Nat} (hn : 14 ≤ n) (m : FREQADJUSTMODE) (g : MiniGen)
    (h : g.configReg < 2 ^ n) : (setFreqAdjustMode m g).configReg < 2 ^ n := by
  have h14 : (2 : Nat) ^ 14 ≤ 2 ^ n := Nat.pow_le_pow_right (by decide) hn
  rw [setFreqAdjustMode_configReg]
  cases m
  · exact and_or_lt _ _ _ h (by omega)
  · exact and_or_lt _ _ _ h (by omega)
  · exact Nat.lt_of_le_of_lt Nat.and_le_left h
  · exact and_or_lt _ _ _ h (by omega)

/-- C3: for every 16-bit shadow value and every argument, `setMode` leaves
every bit other than 5, 3 and 1 as it was, `selectFreqReg` every bit other
than 11, `selectPhaseReg` every bit other than 10, and `setFreqAdjustMode`
every bit other than 13 and 12; in particular `setMode( SQUARE_2)` followed by
`setMode( SINE)` leaves bits 11 and 10 as they were. -/
theorem mutators_frame (g : MiniGen) (h : g.configReg < 65536) :
    (∀ (m : MODE) (i : Nat), i ≠ 5 → i ≠ 3 → i ≠ 1 →
      (setMode m g).configReg.testBit i = g.configReg.testBit i) ∧
    (∀ (r : FREQREG) (i : Nat), i ≠ 11 →
      (selectFreqReg r g).configReg.testBit i = g.configReg.testBit i) ∧
    (∀ (r : PHASEREG) (i : Nat), i ≠ 10 →
      (selectPhaseReg r g).configReg.testBit i = g.configReg.testBit i) ∧
    (∀ (m : FREQADJUSTMODE) (i : Nat), i ≠ 13 → i ≠ 12 →
      (setFreqAdjustMode m g).configReg.testBit i = g.configReg.testBit i) ∧
    ((setMode MODE.SINE (setMode MODE.SQUARE_2 g)).configReg.testBit 11
        = g.configReg.testBit 11 ∧
     (setMode MODE.SINE (setMode MODE.SQUARE_2 g)).configReg.testBit 10
        = g.configReg.testBit 10) := by
  have h16 : g.configReg < 2 ^ 16 := h
  refine ⟨?_, ?_, ?_, ?_, ?_, ?_⟩
  · intro m i h5 h3 h1
    rcases Nat.lt_or_ge i 16 with hi | hi
    · rw [setMode_configReg]
      cases m <;> simp only [Nat.testBit_or, Nat.testBit_and] <;>
        interval_cases i <;> simp_all [compl16, Nat.testBit_to_div_mod]
    · rw [testBit_ge16 h hi, testBit_ge16 (setMode_lt (by decide) m g h16) hi]
  · intro r i h11
    rcases Nat.lt_or_ge i 16 with hi | hi
    · rw [selectFreqReg_configReg]
      cases r <;> simp only [Nat.testBit_or, Nat.testBit_and] <;>
        interval_cases i <;> simp_all [compl16, Nat.testBit_to_div_mod]
    · rw [testBit_ge16 h hi, testBit_ge16 (selectFreqReg_lt (by decide) r g h16) hi]
  · intro r i h10
    rcases Nat.lt_or_ge i 16 with hi | hi
    · rw [selectPhaseReg_configReg]
      cases r <;> simp only [Nat.testBit_or, Nat.testBit_and] <;>
        interval_cases i <;> simp_all [compl16, Nat.testBit_to_div_mod]
    · rw [testBit_ge16 h hi, testBit_ge16 (selectPhaseReg_lt (by decide) r g h16) hi]
  · intro m i h13 h12
    rcases Nat.lt_or_ge i 16 with hi | hi
    · rw [setFreqAdjustMode_configReg]
      cases m <;> simp only [Nat.testBit_or, Nat.testBit_and] <;>
        interval_cases i <;> simp_all [compl16, Nat.testBit_to_div_mod]
    · rw [testBit_ge16 h hi, testBit_ge16 (setFreqAdjustMode_lt (by decide) m g h16) hi]
  · simp only [setMode_configReg, Nat.testBit_or, Nat.testBit_and]
    simp [compl16, Nat.testBit_to_div_mod]
  · simp only [setMode_configReg, Nat.testBit_or, Nat.testBit_and]
    simp [compl16, Nat.testBit_to_div_mod]

/-- C3, witness for `mutators_frame`: the shadow `0x0C00` (bits 11 and 10 set). -/
theorem mutators_frame_witness :
    (∀ (m : MODE) (i : Nat), i ≠ 5 → i ≠ 3 → i ≠ 1 →
      (setMode m { _FSYNCPin := 10, configReg := 0x0C00, bus := [] }).configReg.testBit i
        = (0x0C00 : Nat).testBit i) ∧
    (setMode MODE.SINE (setMode MODE.SQUARE_2
        { _FSYNCPin := 10, configReg := 0x0C00, bus := [] })).configReg.testBit 11 = true :=
  have w := mutators_frame { _FSYNCPin := 10, configReg := 0x0C00, bus := [] } (by decide)
  ⟨w.1, w.2.2.2.2.1.trans (by decide)⟩

/-! ## Tag and payload of the command words -/

theorem config_word_lt (x : Nat) : x &&& 0x3FFF < 16384 := by
  rw [and_3FFF]; omega

theorem freq0_word_facts (x : Nat) :
    0x4000 ||| (x &&& 0x3FFF) < 65536 ∧ (0x4000 ||| (x &&& 0x3FFF)) >>> 14 = 1 ∧
      (0x4000 ||| (x &&& 0x3FFF)) &&& 0x3FFF = x &&& 0x3FFF := by
  have h : x % 16384 < 16384 := Nat.mod_lt _ (by decide)
  rw [and_3FFF, and_3FFF, or_4000 _ h, Nat.shiftRight_eq_div_pow]
  omega

theorem freq1_word_facts (x : Nat) :
    0x8000 ||| (x &&& 0x3FFF) < 65536 ∧ (0x8000 ||| (x &&& 0x3FFF)) >>> 14 = 2 ∧
      (0x8000 ||| (x &&& 0x3FFF)) &&& 0x3FFF = x &&& 0x3FFF := by
  have h : x % 16384 < 16384 := Nat.mod_lt _ (by decide)
  rw [and_3FFF, and_3FFF, or_8000 _ h, Nat.shiftRight_eq_div_pow]
  omega

theorem phase0_word_facts (x : Nat) :
    0xC000 ||| (x &&& 0x0FFF) < 65536 ∧ (0xC000 ||| (x &&& 0x0FFF)) >>> 12 = 12 ∧
      (0xC000 ||| (x &&& 0x0FFF)) &&& 0x0FFF = x &&& 0x0FFF := by
  have h : x % 4096 < 4096 := Nat.mod_lt _ (by decide)
  rw [and_0FFF, and_0FFF, or_C000 _ h, Nat.shiftRight_eq_div_pow]
  omega

theorem phase1_word_facts (x : Nat) :
    0xE000 ||| (x &&& 0x0FFF) < 65536 ∧ (0xE000 ||| (x &&& 0x0FFF)) >>> 12 = 14 ∧
      (0xE000 ||| (x &&& 0x0FFF)) &&& 0x0FFF = x &&& 0x0FFF := by
  have h : x % 4096 < 4096 := Nat.mod_lt _ (by decide)
  rw [and_0FFF, and_0FFF, or_E000 _ h, Nat.shiftRight_eq_div_pow]
  omega

/-! ## C7: one transaction, one word, per mutator -/

theorem transactions_config (pin : Int) (c : Nat) :
    transactions pin (transactionOf pin [c &&& 0x3FFF]) = some [[c &&& 0x3FFF]] := by
  apply transactions_transactionOf
  intro w hw
  rw [List.mem_singleton] at hw
  have := config_word_lt c
  omega

/-- C7: for every shadow value and every argument, each of `setMode`,
`selectFreqReg`, `selectPhaseReg` and `setFreqAdjustMode` adds to the log
exactly one transaction: begin, the frame of one 16-bit word, end; the device
receives one transaction of one word, and the word is the new shadow masked
with `0x3FFF`. -/
theorem mutators_one_transaction (g : MiniGen) :
    (∀ m : MODE,
      emitted (setMode m) g = transactionOf g._FSYNCPin [(setMode m g).configReg &&& 0x3FFF]
      ∧ transactions g._FSYNCPin (emitted (setMode m) g)
          = some [[(setMode m g).configReg &&& 0x3FFF]]) ∧
    (∀ r : FREQREG,
      emitted (selectFreqReg r) g
        = transactionOf g._FSYNCPin [(selectFreqReg r g).configReg &&& 0x3FFF]
      ∧ transactions g._FSYNCPin (emitted (selectFreqReg r) g)
          = some [[(selectFreqReg r g).configReg &&& 0x3FFF]]) ∧
    (∀ r : PHASEREG,
      emitted (selectPhaseReg r) g
        = transactionOf g._FSYNCPin [(selectPhaseReg r g).configReg &&& 0x3FFF]
      ∧ transactions g._FSYNCPin (emitted (selectPhaseReg r) g)
          = some [[(selectPhaseReg r g).configReg &&& 0x3FFF]]) ∧
    (∀ m : FREQADJUSTMODE,
      emitted (setFreqAdjustMode m) g
        = transactionOf g._FSYNCPin [(setFreqAdjustMode m g).configReg &&& 0x3FFF]
      ∧ transactions g._FSYNCPin (emitted (setFreqAdjustMode m) g)
          = some [[(setFreqAdjustMode m g).configReg &&& 0x3FFF]]) := by
  refine ⟨fun m => ?_, fun r => ?_, fun r => ?_, fun m => ?_⟩
  · have e := emitted_of_bus (setMode_bus m g)
    exact ⟨e, by rw [e]; exact transactions_config _ _⟩
  · have e := emitted_of_bus (selectFreqReg_bus r g)
    exact ⟨e, by rw [e]; exact transactions_config _ _⟩
  · have e := emitted_of_bus (selectPhaseReg_bus r g)
    exact ⟨e, by rw [e]; exact transactions_config _ _⟩
  · have e := emitted_of_bus (setFreqAdjustMode_bus m g)
    exact ⟨e, by rw [e]; exact transactions_config _ _⟩

/-! ## C4: the full-width frequency write -/

/-- C4: for both frequency registers and every value `v`, `adjustFreq( reg, v)`
with a 32-bit `v` adds one transaction of exactly two words to the log; both
words carry the tag of the register (01 for `FREQ0`, 10 for `FREQ1`), the
payload of the first is `v & 0x3FFF` and the payload of the second is
`(v >> 14) & 0x3FFF`. -/
theorem adjustFreq_u32_words (v : Nat) (g : MiniGen) :
    (transactions g._FSYNCPin (emitted (adjustFreq_u32 FREQREG.FREQ0 v) g)
        = some [[0x4000 ||| (v &&& 0x3FFF), 0x4000 ||| ((v >>> 14) &&& 0x3FFF)]]
      ∧ (0x4000 ||| (v &&& 0x3FFF)) >>> 14 = 1
      ∧ (0x4000 ||| ((v >>> 14) &&& 0x3FFF)) >>> 14 = 1
      ∧ (0x4000 ||| (v &&& 0x3FFF)) &&& 0x3FFF = v &&& 0x3FFF
      ∧ (0x4000 ||| ((v >>> 14) &&& 0x3FFF)) &&& 0x3FFF = (v >>> 14) &&& 0x3FFF) ∧
    (transactions g._FSYNCPin (emitted (adjustFreq_u32 FREQREG.FREQ1 v) g)
        = some [[0x8000 ||| (v &&& 0x3FFF), 0x8000 ||| ((v >>> 14) &&& 0x3FFF)]]
      ∧ (0x8000 ||| (v &&& 0x3FFF)) >>> 14 = 2
      ∧ (0x8000 ||| ((v >>> 14) &&& 0x3FFF)) >>> 14 = 2
      ∧ (0x8000 ||| (v &&& 0x3FFF)) &&& 0x3FFF = v &&& 0x3FFF
      ∧ (0x8000 ||| ((v >>> 14) &&& 0x3FFF)) &&& 0x3FFF = (v >>> 14) &&& 0x3FFF) := by
  have a0 := freq0_word_facts v
  have a1 := freq0_word_facts (v >>> 14)
  have b0 := freq1_word_facts v
  have b1 := freq1_word_facts (v >>> 14)
  refine ⟨⟨?_, a0.2.1, a1.2.1, a0.2.2, a1.2.2⟩, ⟨?_, b0.2.1, b1.2.1, b0.2.2, b1.2.2⟩⟩
  · rw [emitted_of_bus (adjustFreq_u32_bus FREQREG.FREQ0 v g)]
    apply transactions_transactionOf
    intro w hw
    simp only [if_true, List.mem_cons, List.mem_singleton, List.not_mem_nil, or_false] at hw
    rcases hw with rfl | rfl
    · exact a0.1
    · exact a1.1
  · rw [emitted_of_bus (adjustFreq_u32_bus FREQREG.FREQ1 v g)]
    apply transactions_transactionOf
    intro w hw
    simp only [reduceCtorEq, if_false, List.mem_cons, List.mem_singleton, List.not_mem_nil,
      or_false] at hw
    rcases hw with rfl | rfl
    · exact b0.1
    · exact b1.1

/-! ## Composition of calls, seen from the device -/

theorem Delivers.refl (g : MiniGen) : Delivers g g [] :=
  ⟨rfl, [], by simp, fun done => by simp [rxRun]⟩

theorem Delivers.trans {g g1 g2 : MiniGen} {t1 t2 : List (List Nat)}
    (h1 : Delivers g g1 t1) (h2 : Delivers g1 g2 t2) : Delivers g g2 (t1 ++ t2) := by
  obtain ⟨p1, e1, b1, r1⟩ := h1
  obtain ⟨p2, e2, b2, r2⟩ := h2
  refine ⟨p2.trans p1, e1 ++ e2, by rw [b2, b1, List.append_assoc], fun done => ?_⟩
  rw [rxRun_append, r1 done]
  simp only [Option.bind]
  rw [← p1, r2, List.append_assoc]

theorem Delivers.of_transaction {g g1 : MiniGen} {ws : List Nat}
    (hp : g1._FSYNCPin = g._FSYNCPin)
    (hb : g1.bus = g.bus ++ transactionOf g._FSYNCPin ws) (hw : ∀ w ∈ ws, w < 65536) :
    Delivers g g1 [ws] :=
  ⟨hp, _, hb, fun done => rxRun_transactionOf _ done ws hw⟩

theorem Delivers.to_transactions {g : MiniGen} {txs : List (List Nat)} {f : MiniGen → MiniGen}
    (h : Delivers g (f g) txs) : transactions g._FSYNCPin (emitted f g) = some txs := by
  obtain ⟨_, es, hb, hr⟩ := h
  rw [emitted_of_bus hb]
  unfold MiniGen.transactions
  rw [hr []]
  rfl

theorem config_word_mem_lt {c w : Nat} (hw : w ∈ [c &&& 0x3FFF]) : w < 65536 := by
  rw [List.mem_singleton] at hw
  have := config_word_lt c
  omega

theorem setMode_delivers (m : MODE) (g : MiniGen) :
    Delivers g (setMode m g) [[(setMode m g).configReg &&& 0x3FFF]] :=
  Delivers.of_transaction (setMode_pin m g) (setMode_bus m g) (fun _ hw => config_word_mem_lt hw)

theorem selectFreqReg_delivers (r : FREQREG) (g : MiniGen) :
    Delivers g (selectFreqReg r g) [[(selectFreqReg r g).configReg &&& 0x3FFF]] :=
  Delivers.of_transaction (selectFreqReg_pin r g) (selectFreqReg_bus r g)
    (fun _ hw => config_word_mem_lt hw)

theorem selectPhaseReg_delivers (r : PHASEREG) (g : MiniGen) :
    Delivers g (selectPhaseReg r g) [[(selectPhaseReg r g).configReg &&& 0x3FFF]] :=
  Delivers.of_transaction (selectPhaseReg_pin r g) (selectPhaseReg_bus r g)
    (fun _ hw => config_word_mem_lt hw)

theorem setFreqAdjustMode_delivers (m : FREQADJUSTMODE) (g : MiniGen) :
    Delivers g (setFreqAdjustMode m g) [[(setFreqAdjustMode m g).configReg &&& 0x3FFF]] :=
  Delivers.of_transaction (setFreqAdjustMode_pin m g) (setFreqAdjustMode_bus m g)
    (fun _ hw => config_word_mem_lt hw)

theorem adjustPhaseShift_delivers (r : PHASEREG) (p : Nat) (g : MiniGen) :
    Delivers g (adjustPhaseShift r p g)
      [[if r = PHASEREG.PHASE0 then 0xC000 ||| (p &&& 0x0FFF) else 0xE000 ||| (p &&& 0x0FFF)]] := by
  refine Delivers.of_transaction (adjustPhaseShift_pin r p g) (adjustPhaseShift_bus r p g) ?_
  intro w hw
  rw [List.mem_singleton] at hw
  subst hw
  cases r
  · exact (phase0_word_facts p).1
  · exact (phase1_word_facts p).1

theorem adjustFreq_u32_delivers (r : FREQREG) (v : Nat) (g : MiniGen) :
    Delivers g (adjustFreq_u32 r v g)
      [if r = FREQREG.FREQ0 then
          [0x4000 ||| (v &&& 0x3FFF), 0x4000 ||| ((v >>> 14) &&& 0x3FFF)]
        else [0x8000 ||| (v &&& 0x3FFF), 0x8000 ||| ((v >>> 14) &&& 0x3FFF)]] := by
  refine Delivers.of_transaction (adjustFreq_u32_pin r v g) (adjustFreq_u32_bus r v g) ?_
  intro w hw
  cases r
  · simp only [if_true, List.mem_cons, List.mem_singleton, List.not_mem_nil, or_false] at hw
    rcases hw with rfl | rfl
    · exact (freq0_word_facts v).1
    · exact (freq0_word_facts _).1
  · simp only [reduceCtorEq, if_false, List.mem_cons, List.mem_singleton, List.not_mem_nil,
      or_false] at hw
    rcases hw with rfl | rfl
    · exact (freq1_word_facts v).1
    · exact (freq1_word_facts _).1

theorem adjustFreq_u16_delivers (r : FREQREG) (h : Nat) (g : MiniGen) :
    Delivers g (adjustFreq_u16 r h g)
      [[if r = FREQREG.FREQ0 then 0x4000 ||| (h &&& 0x3FFF) else 0x8000 ||| (h &&& 0x3FFF)]] := by
  refine Delivers.of_transaction (adjustFreq_u16_pin r h g) (adjustFreq_u16_bus r h g) ?_
  intro w hw
  rw [List.mem_singleton] at hw
  subst hw
  cases r
  · exact (freq0_word_facts h).1
  · exact (freq1_word_facts h).1

theorem adjustFreq_mode_u32_delivers (r : FREQREG) (m : FREQADJUSTMODE) (v : Nat) (g : MiniGen) :
    Delivers g (adjustFreq_mode_u32 r m v g)
      [[(setFreqAdjustMode m g).configReg &&& 0x3FFF],
       if r = FREQREG.FREQ0 then
          [0x4000 ||| (v &&& 0x3FFF), 0x4000 ||| ((v >>> 14) &&& 0x3FFF)]
        else [0x8000 ||| (v &&& 0x3FFF), 0x8000 ||| ((v >>> 14) &&& 0x3FFF)]] :=
  (setFreqAdjustMode_delivers m g).trans (adjustFreq_u32_delivers r v _)

theorem adjustFreq_mode_u16_delivers (r : FREQREG) (m : FREQADJUSTMODE) (h : Nat) (g : MiniGen) :
    Delivers g (adjustFreq_mode_u16 r m h g)
      [[(setFreqAdjustMode m g).configReg &&& 0x3FFF],
       [if r = FREQREG.FREQ0 then 0x4000 ||| (h &&& 0x3FFF) else 0x8000 ||| (h &&& 0x3FFF)]] :=
  (setFreqAdjustMode_delivers m g).trans (adjustFreq_u16_delivers r h _)

theorem raw_reset_delivers (g : MiniGen) :
    Delivers g (writeEnd (writeData 0x0000 (writeData 0x0100 (writeStart g))))
      [[0x0100, 0x0000]] := by
  refine Delivers.of_transaction rfl ?_ ?_
  · simp [writeEnd, writeData, writeStart, transactionOf, frameOf]
  · intro w hw
    simp only [List.mem_cons, List.mem_singleton, List.not_mem_nil, or_false] at hw
    rcases hw with rfl | rfl <;> decide

/-! ## C9: the reset sequence -/

theorem freqCalc_100 : freqCalc 100 = 1677 := by
  unfold freqCalc
  norm_num [Int.tdiv]
  rfl

theorem setFreqAdjustMode_FULL_twice (g : MiniGen) :
    (setFreqAdjustMode FREQADJUSTMODE.FULL (setFreqAdjustMode FREQADJUSTMODE.FULL g)).configReg
      = (setFreqAdjustMode FREQADJUSTMODE.FULL g).configReg := by
  simp only [setFreqAdjustMode_configReg]
  apply Nat.eq_of_testBit_eq
  intro i
  simp only [Nat.testBit_or, Nat.testBit_and]
  cases g.configReg.testBit i <;> cases (compl16 0x3000).testBit i <;>
    cases Nat.testBit 0x2000 i <;> rfl

theorem reset_delivers (g : MiniGen) :
    Delivers g (reset g)
      [[(setFreqAdjustMode FREQADJUSTMODE.FULL g).configReg &&& 0x3FFF],
       [0x4000 ||| (freqCalc 100 &&& 0x3FFF), 0x4000 ||| ((freqCalc 100 >>> 14) &&& 0x3FFF)],
       [(setFreqAdjustMode FREQADJUSTMODE.FULL g).configReg &&& 0x3FFF],
       [0x8000 ||| (freqCalc 100 &&& 0x3FFF), 0x8000 ||| ((freqCalc 100 >>> 14) &&& 0x3FFF)],
       [0xC000 ||| (0x0000 &&& 0x0FFF)],
       [0xE000 ||| (0x0000 &&& 0x0FFF)],
       [0x0100, 0x0000]] := by
  have d1 := adjustFreq_mode_u32_delivers FREQREG.FREQ0 FREQADJUSTMODE.FULL (freqCalc 100) g
  have d2 := adjustFreq_mode_u32_delivers FREQREG.FREQ1 FREQADJUSTMODE.FULL (freqCalc 100)
    (adjustFreq_mode_u32 FREQREG.FREQ0 FREQADJUSTMODE.FULL (freqCalc 100) g)
  have d3 := adjustPhaseShift_delivers PHASEREG.PHASE0 0x0000
    (adjustFreq_mode_u32 FREQREG.FREQ1 FREQADJUSTMODE.FULL (freqCalc 100)
      (adjustFreq_mode_u32 FREQREG.FREQ0 FREQADJUSTMODE.FULL (freqCalc 100) g))
  have d4 := adjustPhaseShift_delivers PHASEREG.PHASE1 0x0000
    (adjustPhaseShift PHASEREG.PHASE0 0x0000
      (adjustFreq_mode_u32 FREQREG.FREQ1 FREQADJUSTMODE.FULL (freqCalc 100)
        (adjustFreq_mode_u32 FREQREG.FREQ0 FREQADJUSTMODE.FULL (freqCalc 100) g)))
  have d5 := raw_reset_delivers
    (adjustPhaseShift PHASEREG.PHASE1 0x0000
      (adjustPhaseShift PHASEREG.PHASE0 0x0000
        (adjustFreq_mode_u32 FREQREG.FREQ1 FREQADJUSTMODE.FULL (freqCalc 100)
          (adjustFreq_mode_u32 FREQREG.FREQ0 FREQADJUSTMODE.FULL (freqCalc 100) g))))
  have e : (setFreqAdjustMode FREQADJUSTMODE.FULL
      (adjustFreq_mode_u32 FREQREG.FREQ0 FREQADJUSTMODE.FULL (freqCalc 100) g)).configReg
        = (setFreqAdjustMode FREQADJUSTMODE.FULL g).configReg := by
    have := setFreqAdjustMode_FULL_twice g
    simpa only [setFreqAdjustMode_configReg, adjustFreq_mode_u32, adjustFreq_u32_configReg]
      using this
  rw [e] at d2
  have d := (((d1.trans d2).trans d3).trans d4).trans d5
  simpa only [reduceCtorEq, if_true, if_false, List.cons_append, List.nil_append] using d

theorem reset_configReg (g : MiniGen) :
    (reset g).configReg = (setFreqAdjustMode FREQADJUSTMODE.FULL g).configReg := by
  have e := setFreqAdjustMode_FULL_twice g
  simpa only [reset, writeEnd, writeData, writeStart, adjustPhaseShift_configReg,
    adjustFreq_mode_u32, adjustFreq_u32_configReg] using e

/-- C9: for every prior shadow `s`, `reset()` sends seven transactions, in
this order: the configuration word with granularity `FULL`; the two
frequency-register-0 words with the low and the high 14 bits of `f`; the same
configuration word again; the two frequency-register-1 words with the halves of
the same `f`; the phase-register-0 word `0xC000`; the phase-register-1 word
`0xE000`; and one raw transaction with the constants `0x0100`, `0x0000`, which
do not depend on `s` and are not stored in the shadow.  Here `f` is
`freqCalc( 100.0)`, which is 1677. -/
theorem reset_sequence (g : MiniGen) :
    transactions g._FSYNCPin (emitted reset g)
      = some
        [[((g.configReg &&& compl16 0x3000) ||| 0x2000) &&& 0x3FFF],
         [0x4000 ||| (freqCalc 100 &&& 0x3FFF), 0x4000 ||| ((freqCalc 100 >>> 14) &&& 0x3FFF)],
         [((g.configReg &&& compl16 0x3000) ||| 0x2000) &&& 0x3FFF],
         [0x8000 ||| (freqCalc 100 &&& 0x3FFF), 0x8000 ||| ((freqCalc 100 >>> 14) &&& 0x3FFF)],
         [0xC000],
         [0xE000],
         [0x0100, 0x0000]]
    ∧ (((g.configReg &&& compl16 0x3000) ||| 0x2000) &&& 0x3FFF) >>> 14 = 0
    ∧ ((((g.configReg &&& compl16 0x3000) ||| 0x2000) &&& 0x3FFF) >>> 12) % 4 = 2
    ∧ freqCalc 100 = 1677
    ∧ (reset g).configReg = (g.configReg &&& compl16 0x3000) ||| 0x2000 := by
  refine ⟨?_, ?_, ?_, freqCalc_100, ?_⟩
  · have d := (reset_delivers g).to_transactions
    simpa only [setFreqAdjustMode_configReg] using d
  · have := config_word_lt ((g.configReg &&& compl16 0x3000) ||| 0x2000)
    rw [Nat.shiftRight_eq_div_pow]
    omega
  · rw [field_13_12]
    simp only [Nat.testBit_or, Nat.testBit_and]
    simp [compl16, Nat.testBit_to_div_mod]
  · rw [reset_configReg, setFreqAdjustMode_configReg]

/-! ## C2: the shadow and the configuration register of the device -/

theorem runOps_append (ops : List Op) (op : Op) (g : MiniGen) :
    runOps (ops ++ [op]) g = op.run (runOps ops g) := by
  induction ops generalizing g with
  | nil => rfl
  | cons o os ih => exact ih (o.run g)

theorem isConfigWord_of_lt {c : Nat} (h : c < 16384) : isConfigWord c = true := by
  unfold isConfigWord
  rw [Nat.shiftRight_eq_div_pow]
  have : c / 2 ^ 14 = 0 := Nat.div_eq_of_lt h
  rw [this]
  rfl

theorem isConfigWord_freq0 (x : Nat) : isConfigWord (0x4000 ||| (x &&& 0x3FFF)) = false := by
  unfold isConfigWord
  rw [(freq0_word_facts x).2.1]
  rfl

theorem isConfigWord_freq1 (x : Nat) : isConfigWord (0x8000 ||| (x &&& 0x3FFF)) = false := by
  unfold isConfigWord
  rw [(freq1_word_facts x).2.1]
  rfl

theorem isConfigWord_phase0 (x : Nat) : isConfigWord (0xC000 ||| (x &&& 0x0FFF)) = false := by
  have h := (phase0_word_facts x).2.1
  unfold isConfigWord
  rw [Nat.shiftRight_eq_div_pow] at h ⊢
  have : (0xC000 ||| (x &&& 0x0FFF)) / 2 ^ 14 ≠ 0 := by omega
  simpa using this

theorem isConfigWord_phase1 (x : Nat) : isConfigWord (0xE000 ||| (x &&& 0x0FFF)) = false := by
  have h := (phase1_word_facts x).2.1
  unfold isConfigWord
  rw [Nat.shiftRight_eq_div_pow] at h ⊢
  have : (0xE000 ||| (x &&& 0x0FFF)) / 2 ^ 14 ≠ 0 := by omega
  simpa using this

theorem and_3FFF_of_lt {c : Nat} (h : c < 16384) : c &&& 0x3FFF = c := by
  rw [and_3FFF]; omega

theorem lastConfigWord_append (txs new : List (List Nat)) :
    lastConfigWord (txs ++ new) = (lastConfigWord new).or (lastConfigWord txs) := by
  unfold lastConfigWord
  rw [List.flatten_append, List.filter_append, List.getLast?_append]

theorem lastConfigWord_cons {x : Nat} (h : x < 16384) (rest : List (List Nat))
    (hr : ∀ ws ∈ rest, ∀ w ∈ ws, isConfigWord w = false) :
    lastConfigWord ([x] :: rest) = some x := by
  have e : rest.flatten.filter isConfigWord = [] := by
    rw [List.filter_eq_nil_iff]
    intro w hw
    obtain ⟨ws, hws, hw⟩ := List.mem_flatten.mp hw
    simp [hr ws hws w hw]
  unfold lastConfigWord
  rw [List.flatten_cons, List.filter_append, e]
  simp [List.filter, isConfigWord_of_lt h]

theorem lastConfigWord_config {c : Nat} (h : c < 16384) (rest : List (List Nat))
    (hr : ∀ ws ∈ rest, ∀ w ∈ ws, isConfigWord w = false) :
    lastConfigWord ([c &&& 0x3FFF] :: rest) = some c := by
  rw [and_3FFF_of_lt h]
  exact lastConfigWord_cons h rest hr

theorem lastConfigWord_none (txs : List (List Nat))
    (hr : ∀ ws ∈ txs, ∀ w ∈ ws, isConfigWord w = false) : lastConfigWord txs = none := by
  have e : txs.flatten.filter isConfigWord = [] := by
    rw [List.filter_eq_nil_iff]
    intro w hw
    obtain ⟨ws, hws, hw⟩ := List.mem_flatten.mp hw
    simp [hr ws hws w hw]
  unfold lastConfigWord
  rw [e]
  rfl

theorem freq_words_not_config (r : FREQREG) (v : Nat) :
    ∀ ws ∈ [if r = FREQREG.FREQ0 then
          [0x4000 ||| (v &&& 0x3FFF), 0x4000 ||| ((v >>> 14) &&& 0x3FFF)]
        else [0x8000 ||| (v &&& 0x3FFF), 0x8000 ||| ((v >>> 14) &&& 0x3FFF)]],
      ∀ w ∈ ws, isConfigWord w = false := by
  intro ws hws w hw
  rw [List.mem_singleton] at hws
  subst hws
  cases r
  · simp only [if_true, List.mem_cons, List.mem_singleton, List.not_mem_nil, or_false] at hw
    rcases hw with rfl | rfl
    · exact isConfigWord_freq0 _
    · exact isConfigWord_freq0 _
  · simp only [reduceCtorEq, if_false, List.mem_cons, List.mem_singleton, List.not_mem_nil,
      or_false] at hw
    rcases hw with rfl | rfl
    · exact isConfigWord_freq1 _
    · exact isConfigWord_freq1 _

theorem freq_word_not_config (r : FREQREG) (h : Nat) :
    ∀ ws ∈ [[if r = FREQREG.FREQ0 then 0x4000 ||| (h &&& 0x3FFF) else 0x8000 ||| (h &&& 0x3FFF)]],
      ∀ w ∈ ws, isConfigWord w = false := by
  intro ws hws w hw
  rw [List.mem_singleton] at hws
  subst hws
  rw [List.mem_singleton] at hw
  subst hw
  cases r
  · exact isConfigWord_freq0 _
  · exact isConfigWord_freq1 _

theorem phase_word_not_config (r : PHASEREG) (p : Nat) :
    ∀ ws ∈ [[if r = PHASEREG.PHASE0 then 0xC000 ||| (p &&& 0x0FFF)
              else 0xE000 ||| (p &&& 0x0FFF)]],
      ∀ w ∈ ws, isConfigWord w = false := by
  intro ws hws w hw
  rw [List.mem_singleton] at hws
  subst hws
  rw [List.mem_singleton] at hw
  subst hw
  cases r
  · exact isConfigWord_phase0 _
  · exact isConfigWord_phase1 _

/-- What one call does to a shadow that fits in 14 bits: the transactions it
sends, and how the last configuration word relates to the new shadow. -/
theorem run_summary (op : Op) (g : MiniGen) (hg : g.configReg < 2 ^ 14) :
    ∃ new, Delivers g (op.run g) new ∧ (op.run g).configReg < 2 ^ 14 ∧
      (op.writesConfig = false →
        lastConfigWord new = none ∧ (op.run g).configReg = g.configReg) ∧
      (op.writesConfig = true → op ≠ Op.reset →
        lastConfigWord new = some (op.run g).configReg) := by
  cases op with
  | reset =>
    refine ⟨_, reset_delivers g, ?_, fun h => ?_, fun _ h => ?_⟩
    · show (reset g).configReg < 2 ^ 14
      rw [reset_configReg]
      exact setFreqAdjustMode_lt (by decide) _ g hg
    · exact absurd h (by decide)
    · exact absurd rfl h
  | setMode m =>
    have hc := setMode_lt (by decide) m g hg
    exact ⟨_, setMode_delivers m g, hc, fun h => absurd h (by simp [Op.writesConfig]),
      fun _ _ => lastConfigWord_config hc [] (by simp)⟩
  | selectFreqReg r =>
    have hc := selectFreqReg_lt (by decide) r g hg
    exact ⟨_, selectFreqReg_delivers r g, hc, fun h => absurd h (by simp [Op.writesConfig]),
      fun _ _ => lastConfigWord_config hc [] (by simp)⟩
  | selectPhaseReg r =>
    have hc := selectPhaseReg_lt (by decide) r g hg
    exact ⟨_, selectPhaseReg_delivers r g, hc, fun h => absurd h (by simp [Op.writesConfig]),
      fun _ _ => lastConfigWord_config hc [] (by simp)⟩
  | setFreqAdjustMode m =>
    have hc := setFreqAdjustMode_lt (by decide) m g hg
    exact ⟨_, setFreqAdjustMode_delivers m g, hc, fun h => absurd h (by simp [Op.writesConfig]),
      fun _ _ => lastConfigWord_config hc [] (by simp)⟩
  | adjustPhaseShift r p =>
    refine ⟨_, adjustPhaseShift_delivers r p g, ?_, fun _ => ⟨?_, ?_⟩, fun h => absurd h (by simp [Op.writesConfig])⟩
    · show (adjustPhaseShift r p g).configReg < 2 ^ 14
      rw [adjustPhaseShift_configReg]; exact hg
    · exact lastConfigWord_none _ (phase_word_not_config r p)
    · exact adjustPhaseShift_configReg r p g
  | adjustFreq_mode_u32 r m v =>
    have hc := setFreqAdjustMode_lt (by decide) m g hg
    have e : (adjustFreq_mode_u32 r m v g).configReg = (setFreqAdjustMode m g).configReg :=
      adjustFreq_u32_configReg r v _
    refine ⟨_, adjustFreq_mode_u32_delivers r m v g, ?_, fun h => absurd h (by simp [Op.writesConfig]),
      fun _ _ => ?_⟩
    · show (adjustFreq_mode_u32 r m v g).configReg < 2 ^ 14
      rw [e]; exact hc
    · show _ = some (adjustFreq_mode_u32 r m v g).configReg
      rw [e]
      exact lastConfigWord_config hc _ (freq_words_not_config r v)
  | adjustFreq_mode_u16 r m v =>
    have hc := setFreqAdjustMode_lt (by decide) m g hg
    have e : (adjustFreq_mode_u16 r m v g).configReg = (setFreqAdjustMode m g).configReg :=
      adjustFreq_u16_configReg r v _
    refine ⟨_, adjustFreq_mode_u16_delivers r m v g, ?_, fun h => absurd h (by simp [Op.writesConfig]),
      fun _ _ => ?_⟩
    · show (adjustFreq_mode_u16 r m v g).configReg < 2 ^ 14
      rw [e]; exact hc
    · show _ = some (adjustFreq_mode_u16 r m v g).configReg
      rw [e]
      exact lastConfigWord_config hc _ (freq_word_not_config r v)
  | adjustFreq_u32 r v =>
    refine ⟨_, adjustFreq_u32_delivers r v g, ?_, fun _ => ⟨?_, ?_⟩, fun h => absurd h (by simp [Op.writesConfig])⟩
    · show (adjustFreq_u32 r v g).configReg < 2 ^ 14
      rw [adjustFreq_u32_configReg]; exact hg
    · exact lastConfigWord_none _ (freq_words_not_config r v)
    · exact adjustFreq_u32_configReg r v g
  | adjustFreq_u16 r v =>
    refine ⟨_, adjustFreq_u16_delivers r v g, ?_, fun _ => ⟨?_, ?_⟩, fun h => absurd h (by simp [Op.writesConfig])⟩
    · show (adjustFreq_u16 r v g).configReg < 2 ^ 14
      rw [adjustFreq_u16_configReg]; exact hg
    · exact lastConfigWord_none _ (freq_word_not_config r v)
    · exact adjustFreq_u16_configReg r v g

/-- The calls marked by `Op.writesConfig` are exactly those that send a word
to the configuration register, whatever the state they are made in. -/
theorem writesConfig_iff_sends (op : Op) (g : MiniGen) :
    ∃ txs, transactions g._FSYNCPin (emitted op.run g) = some txs ∧
      (lastConfigWord txs).isSome = op.writesConfig := by
  cases op with
  | reset =>
    refine ⟨_, (reset_delivers g).to_transactions, ?_⟩
    have hraw : lastConfigWord [[0x0100, 0x0000]] = some 0x0000 := by decide
    have e := lastConfigWord_append
      [[(setFreqAdjustMode FREQADJUSTMODE.FULL g).configReg &&& 0x3FFF],
       [0x4000 ||| (freqCalc 100 &&& 0x3FFF), 0x4000 ||| ((freqCalc 100 >>> 14) &&& 0x3FFF)],
       [(setFreqAdjustMode FREQADJUSTMODE.FULL g).configReg &&& 0x3FFF],
       [0x8000 ||| (freqCalc 100 &&& 0x3FFF), 0x8000 ||| ((freqCalc 100 >>> 14) &&& 0x3FFF)],
       [0xC000 ||| (0x0000 &&& 0x0FFF)],
       [0xE000 ||| (0x0000 &&& 0x0FFF)]] [[0x0100, 0x0000]]
    rw [hraw] at e
    simp only [List.cons_append, List.nil_append] at e
    rw [e]
    rfl
  | setMode m =>
    refine ⟨_, (setMode_delivers m g).to_transactions, ?_⟩
    rw [lastConfigWord_cons (config_word_lt _) [] (by simp)]; rfl
  | selectFreqReg r =>
    refine ⟨_, (selectFreqReg_delivers r g).to_transactions, ?_⟩
    rw [lastConfigWord_cons (config_word_lt _) [] (by simp)]; rfl
  | selectPhaseReg r =>
    refine ⟨_, (selectPhaseReg_delivers r g).to_transactions, ?_⟩
    rw [lastConfigWord_cons (config_word_lt _) [] (by simp)]; rfl
  | setFreqAdjustMode m =>
    refine ⟨_, (setFreqAdjustMode_delivers m g).to_transactions, ?_⟩
    rw [lastConfigWord_cons (config_word_lt _) [] (by simp)]; rfl
  | adjustPhaseShift r p =>
    refine ⟨_, (adjustPhaseShift_delivers r p g).to_transactions, ?_⟩
    rw [lastConfigWord_none _ (phase_word_not_config r p)]; rfl
  | adjustFreq_mode_u32 r m v =>
    refine ⟨_, (adjustFreq_mode_u32_delivers r m v g).to_transactions, ?_⟩
    rw [lastConfigWord_cons (config_word_lt _) _ (freq_words_not_config r v)]; rfl
  | adjustFreq_mode_u16 r m v =>
    refine ⟨_, (adjustFreq_mode_u16_delivers r m v g).to_transactions, ?_⟩
    rw [lastConfigWord_cons (config_word_lt _) _ (freq_word_not_config r v)]; rfl
  | adjustFreq_u32 r v =>
    refine ⟨_, (adjustFreq_u32_delivers r v g).to_transactions, ?_⟩
    rw [lastConfigWord_none _ (freq_words_not_config r v)]; rfl
  | adjustFreq_u16 r v =>
    refine ⟨_, (adjustFreq_u16_delivers r v g).to_transactions, ?_⟩
    rw [lastConfigWord_none _ (freq_word_not_config r v)]; rfl

theorem Delivers.to_transactions_init {pin : Int} {g : MiniGen} {txs : List (List Nat)}
    (h : Delivers (init pin) g txs) : transactions pin g.bus = some txs := by
  obtain ⟨_, es, hb, hr⟩ := h
  have e : g.bus = es := by simpa [init] using hb
  unfold MiniGen.transactions
  rw [e]
  have := hr []
  simp only [init] at this
  rw [this]
  rfl

/-- Every state reached from a new driver has a log of complete transactions
and a shadow that fits in 14 bits; and unless the most recent call that wrote
the configuration register is `reset`, the last configuration word of the log
is the shadow. -/
theorem reachable_summary (pin : Int) (ops : List Op) :
    ∃ txs, Delivers (init pin) (runOps ops (init pin)) txs ∧
      (runOps ops (init pin)).configReg < 2 ^ 14 ∧
      ((ops.filter Op.writesConfig).getLast? ≠ some Op.reset →
        ∀ w, lastConfigWord txs = some w → (runOps ops (init pin)).configReg = w) := by
  induction ops using List.reverseRecOn with
  | nil =>
    refine ⟨[], Delivers.refl _, by simp [runOps, init], fun _ w hw => ?_⟩
    exact absurd hw (by simp [lastConfigWord])
  | append_singleton ops op ih =>
    obtain ⟨txs, hd, hlt, hsync⟩ := ih
    obtain ⟨new, hd1, hlt1, hA, hB⟩ := run_summary op (runOps ops (init pin)) hlt
    rw [runOps_append]
    refine ⟨txs ++ new, hd.trans hd1, hlt1, fun hne w hw => ?_⟩
    rw [lastConfigWord_append] at hw
    rw [List.filter_append] at hne
    cases hwc : op.writesConfig with
    | false =>
      obtain ⟨hnone, hsame⟩ := hA hwc
      have hf : List.filter Op.writesConfig [op] = [] := by simp [hwc]
      rw [hf, List.append_nil] at hne
      rw [hnone] at hw
      rw [hsame]
      exact hsync hne w hw
    | true =>
      have hf : List.filter Op.writesConfig [op] = [op] := by simp [hwc]
      rw [hf, List.getLast?_concat] at hne
      have hop : op ≠ Op.reset := fun e => hne (by rw [e])
      rw [hB hwc hop] at hw
      simpa using hw

/-! ### C2 as stated fails after `reset` -/

/-- C2, counterexample: on a new driver (select pin 10, shadow 0) the single
call `reset()` sends seven transactions; the last configuration-register word
among them is `0x0000`, from the raw transaction, while the shadow is left at
`0x2000`. -/
theorem reset_leaves_shadow_stale :
    transactions 10 (runOps [Op.reset] (init 10)).bus
      = some [[0x2000], [0x468D, 0x4000], [0x2000], [0x868D, 0x8000], [0xC000], [0xE000],
          [0x0100, 0x0000]]
    ∧ lastConfigWord [[0x2000], [0x468D, 0x4000], [0x2000], [0x868D, 0x8000], [0xC000],
          [0xE000], [0x0100, 0x0000]] = some 0x0000
    ∧ (runOps [Op.reset] (init 10)).configReg = 0x2000
    ∧ (0x2000 : Nat) ≠ 0x0000 := by
  refine ⟨?_, by decide, ?_, by decide⟩
  · have d := (reset_delivers (init 10)).to_transactions_init
    rw [freqCalc_100] at d
    exact d
  · show (reset (init 10)).configReg = 0x2000
    rw [reset_configReg]
    decide

/-! ### C2 amended -/

/-- C2, amended: for every finite sequence of public operations on a new
driver (shadow 0), the whole log is a sequence of complete transactions, and
unless the most recent operation that wrote the configuration register is
`reset`, the shadow `configReg` equals the last configuration-register word
sent to the device (if there is one). -/
theorem shadow_tracks_config (pin : Int) (ops : List Op)
    (h : (ops.filter Op.writesConfig).getLast? ≠ some Op.reset) :
    ∃ txs, transactions pin (runOps ops (init pin)).bus = some txs ∧
      ∀ w, lastConfigWord txs = some w → (runOps ops (init pin)).configReg = w := by
  obtain ⟨txs, hd, _, hsync⟩ := reachable_summary pin ops
  exact ⟨txs, hd.to_transactions_init, hsync h⟩

/-- C2, witness for `shadow_tracks_config`: `reset`, then `selectFreqReg( FREQ1)`,
then a plain phase write; the last configuration word is again the shadow. -/
theorem shadow_tracks_config_witness :
    ∃ txs, transactions 10 (runOps [Op.reset, Op.selectFreqReg FREQREG.FREQ1,
        Op.adjustPhaseShift PHASEREG.PHASE0 5] (init 10)).bus = some txs ∧
      ∀ w, lastConfigWord txs = some w →
        (runOps [Op.reset, Op.selectFreqReg FREQREG.FREQ1,
          Op.adjustPhaseShift PHASEREG.PHASE0 5] (init 10)).configReg = w :=
  shadow_tracks_config 10
    [Op.reset, Op.selectFreqReg FREQREG.FREQ1, Op.adjustPhaseShift PHASEREG.PHASE0 5]
    (by decide)

/-! ## C8: different mutators commute on the shadow -/

/-- Bit `i` of the shadow after `setMode`: decided by the argument alone on
bits 5, 3, 1 and kept elsewhere. -/
theorem setMode_testBit (m : MODE) (g : MiniGen) (h : g.configReg < 65536) (i : Nat) :
    (setMode m g).configReg.testBit i =
      if i = 5 ∨ i = 3 ∨ i = 1 then (setMode m (init 0)).configReg.testBit i
      else g.configReg.testBit i := by
  rcases Nat.lt_or_ge i 16 with hi | hi
  · simp only [setMode_configReg, init]
    cases m <;> simp only [Nat.testBit_or, Nat.testBit_and] <;>
      interval_cases i <;> simp [compl16, Nat.testBit_to_div_mod]
  · rw [if_neg (by omega), testBit_ge16 h hi,
      testBit_ge16 (setMode_lt (n := 16) (by decide) m g h) hi]

theorem selectFreqReg_testBit (r : FREQREG) (g : MiniGen) (h : g.configReg < 65536) (i : Nat) :
    (selectFreqReg r g).configReg.testBit i =
      if i = 11 then (selectFreqReg r (init 0)).configReg.testBit i
      else g.configReg.testBit i := by
  rcases Nat.lt_or_ge i 16 with hi | hi
  · simp only [selectFreqReg_configReg, init]
    cases r <;> simp only [Nat.testBit_or, Nat.testBit_and] <;>
      interval_cases i <;> simp [compl16, Nat.testBit_to_div_mod]
  · rw [if_neg (by omega), testBit_ge16 h hi,
      testBit_ge16 (selectFreqReg_lt (n := 16) (by decide) r g h) hi]

theorem selectPhaseReg_testBit (r : PHASEREG) (g : MiniGen) (h : g.configReg < 65536) (i : Nat) :
    (selectPhaseReg r g).configReg.testBit i =
      if i = 10 then (selectPhaseReg r (init 0)).configReg.testBit i
      else g.configReg.testBit i := by
  rcases Nat.lt_or_ge i 16 with hi | hi
  · simp only [selectPhaseReg_configReg, init]
    cases r <;> simp only [Nat.testBit_or, Nat.testBit_and] <;>
      interval_cases i <;> simp [compl16, Nat.testBit_to_div_mod]
  · rw [if_neg (by omega), testBit_ge16 h hi,
      testBit_ge16 (selectPhaseReg_lt (n := 16) (by decide) r g h) hi]

theorem setFreqAdjustMode_testBit (m : FREQADJUSTMODE) (g : MiniGen) (h : g.configReg < 65536)
    (i : Nat) :
    (setFreqAdjustMode m g).configReg.testBit i =
      if i = 13 ∨ i = 12 then (setFreqAdjustMode m (init 0)).configReg.testBit i
      else g.configReg.testBit i := by
  rcases Nat.lt_or_ge i 16 with hi | hi
  · simp only [setFreqAdjustMode_configReg, init]
    cases m <;> simp only [Nat.testBit_or, Nat.testBit_and] <;>
      interval_cases i <;> simp [compl16, Nat.testBit_to_div_mod]
  · rw [if_neg (by omega), testBit_ge16 h hi,
      testBit_ge16 (setFreqAdjustMode_lt (n := 16) (by decide) m g h) hi]

theorem mutator_lt (op : Op) (hop : op.isMutator = true) (g : MiniGen)
    (h : g.configReg < 65536) : (op.run g).configReg < 65536 := by
  have h16 : g.configReg < 2 ^ 16 := h
  cases op with
  | setMode m => exact setMode_lt (n := 16) (by decide) m g h16
  | selectFreqReg r => exact selectFreqReg_lt (n := 16) (by decide) r g h16
  | selectPhaseReg r => exact selectPhaseReg_lt (n := 16) (by decide) r g h16
  | setFreqAdjustMode m => exact setFreqAdjustMode_lt (n := 16) (by decide) m g h16
  | reset => exact absurd hop (by decide)
  | adjustPhaseShift r p => exact absurd hop (by simp [Op.isMutator])
  | adjustFreq_mode_u32 r m v => exact absurd hop (by simp [Op.isMutator])
  | adjustFreq_mode_u16 r m v => exact absurd hop (by simp [Op.isMutator])
  | adjustFreq_u32 r v => exact absurd hop (by simp [Op.isMutator])
  | adjustFreq_u16 r v => exact absurd hop (by simp [Op.isMutator])

theorem runOps_mutators_lt (ops : List Op) (hm : ∀ op ∈ ops, op.isMutator = true)
    (g : MiniGen) (h : g.configReg < 65536) : (runOps ops g).configReg < 65536 := by
  induction ops generalizing g with
  | nil => exact h
  | cons op ops ih =>
    exact ih (fun o ho => hm o (List.mem_cons_of_mem _ ho)) (op.run g)
      (mutator_lt op (hm op (List.mem_cons_self _ _)) g h)

/-- Bit `i` of the shadow after a sequence of mutators: on the bits of each
field it is decided by the last argument given to the mutator of that field,
and it is the initial bit when that mutator was not called. -/
theorem runOps_testBit (ops : List Op) (hm : ∀ op ∈ ops, op.isMutator = true)
    (g : MiniGen) (h : g.configReg < 65536) (i : Nat) :
    (runOps ops g).configReg.testBit i =
      if i = 5 ∨ i = 3 ∨ i = 1 then
        (lastSetMode ops).elim (g.configReg.testBit i)
          (fun m => (setMode m (init 0)).configReg.testBit i)
      else if i = 11 then
        (lastSelectFreqReg ops).elim (g.configReg.testBit i)
          (fun r => (selectFreqReg r (init 0)).configReg.testBit i)
      else if i = 10 then
        (lastSelectPhaseReg ops).elim (g.configReg.testBit i)
          (fun r => (selectPhaseReg r (init 0)).configReg.testBit i)
      else if i = 13 ∨ i = 12 then
        (lastSetFreqAdjustMode ops).elim (g.configReg.testBit i)
          (fun m => (setFreqAdjustMode m (init 0)).configReg.testBit i)
      else g.configReg.testBit i := by
  induction ops using List.reverseRecOn with
  | nil => simp [runOps, lastSetMode, lastSelectFreqReg, lastSelectPhaseReg,
      lastSetFreqAdjustMode]
  | append_singleton ops op ih =>
    have hm1 : ∀ o ∈ ops, o.isMutator = true := fun o ho => hm o (List.mem_append_left _ ho)
    have hop : op.isMutator = true := hm op (List.mem_append_right _ (List.mem_singleton_self _))
    have hlt := runOps_mutators_lt ops hm1 g h
    have ih1 := ih hm1
    rw [runOps_append]
    cases op with
    | setMode m =>
      show (setMode m (runOps ops g)).configReg.testBit i = _
      rw [setMode_testBit m _ hlt i, ih1]
      simp only [lastSetMode, lastSelectFreqReg, lastSelectPhaseReg, lastSetFreqAdjustMode,
        List.filterMap_append, List.filterMap_cons, List.filterMap_nil, List.append_nil,
        List.getLast?_concat, Option.elim]
      split_ifs <;> rfl
    | selectFreqReg r =>
      show (selectFreqReg r (runOps ops g)).configReg.testBit i = _
      rw [selectFreqReg_testBit r _ hlt i, ih1]
      simp only [lastSetMode, lastSelectFreqReg, lastSelectPhaseReg, lastSetFreqAdjustMode,
        List.filterMap_append, List.filterMap_cons, List.filterMap_nil, List.append_nil,
        List.getLast?_concat, Option.elim]
      split_ifs <;> first | rfl | omega
    | selectPhaseReg r =>
      show (selectPhaseReg r (runOps ops g)).configReg.testBit i = _
      rw [selectPhaseReg_testBit r _ hlt i, ih1]
      simp only [lastSetMode, lastSelectFreqReg, lastSelectPhaseReg, lastSetFreqAdjustMode,
        List.filterMap_append, List.filterMap_cons, List.filterMap_nil, List.append_nil,
        List.getLast?_concat, Option.elim]
      split_ifs <;> first | rfl | omega
    | setFreqAdjustMode m =>
      show (setFreqAdjustMode m (runOps ops g)).configReg.testBit i = _
      rw [setFreqAdjustMode_testBit m _ hlt i, ih1]
      simp only [lastSetMode, lastSelectFreqReg, lastSelectPhaseReg, lastSetFreqAdjustMode,
        List.filterMap_append, List.filterMap_cons, List.filterMap_nil, List.append_nil,
        List.getLast?_concat, Option.elim]
      split_ifs <;> first | rfl | omega
    | reset => exact absurd hop (by decide)
    | adjustPhaseShift r p => exact absurd hop (by simp [Op.isMutator])
    | adjustFreq_mode_u32 r m v => exact absurd hop (by simp [Op.isMutator])
    | adjustFreq_mode_u16 r m v => exact absurd hop (by simp [Op.isMutator])
    | adjustFreq_u32 r v => exact absurd hop (by simp [Op.isMutator])
    | adjustFreq_u16 r v => exact absurd hop (by simp [Op.isMutator])

/-- Two sequences of mutators with the same last argument of each kind leave
the same shadow. -/
theorem shadow_of_last_args (g : MiniGen) (h : g.configReg < 65536) (ops1 ops2 : List Op)
    (hm1 : ∀ op ∈ ops1, op.isMutator = true) (hm2 : ∀ op ∈ ops2, op.isMutator = true)
    (e1 : lastSetMode ops1 = lastSetMode ops2)
    (e2 : lastSelectFreqReg ops1 = lastSelectFreqReg ops2)
    (e3 : lastSelectPhaseReg ops1 = lastSelectPhaseReg ops2)
    (e4 : lastSetFreqAdjustMode ops1 = lastSetFreqAdjustMode ops2) :
    (runOps ops1 g).configReg = (runOps ops2 g).configReg := by
  apply Nat.eq_of_testBit_eq
  intro i
  rw [runOps_testBit ops1 hm1 g h i, runOps_testBit ops2 hm2 g h i, e1, e2, e3, e4]

theorem two_mutators (a b : Op) (ha : a.isMutator = true) (hb : b.isMutator = true) :
    ∀ op ∈ [a, b], op.isMutator = true := by
  intro op hop
  simp only [List.mem_cons, List.mem_singleton, List.not_mem_nil, or_false] at hop
  rcases hop with rfl | rfl
  · exact ha
  · exact hb

/-- C8: for every 16-bit shadow value, any two different mutators among
`setMode`, `selectFreqReg`, `selectPhaseReg` and `setFreqAdjustMode`, with any
arguments, give the same final shadow in either order; and after any sequence
of mutators the final shadow depends only on the last argument given to each
kind of mutator. -/
theorem mutators_commute (g : MiniGen) (h : g.configReg < 65536) :
    (∀ (m : MODE) (r : FREQREG),
      (selectFreqReg r (setMode m g)).configReg = (setMode m (selectFreqReg r g)).configReg) ∧
    (∀ (m : MODE) (r : PHASEREG),
      (selectPhaseReg r (setMode m g)).configReg = (setMode m (selectPhaseReg r g)).configReg) ∧
    (∀ (m : MODE) (a : FREQADJUSTMODE),
      (setFreqAdjustMode a (setMode m g)).configReg
        = (setMode m (setFreqAdjustMode a g)).configReg) ∧
    (∀ (r : FREQREG) (p : PHASEREG),
      (selectPhaseReg p (selectFreqReg r g)).configReg
        = (selectFreqReg r (selectPhaseReg p g)).configReg) ∧
    (∀ (r : FREQREG) (a : FREQADJUSTMODE),
      (setFreqAdjustMode a (selectFreqReg r g)).configReg
        = (selectFreqReg r (setFreqAdjustMode a g)).configReg) ∧
    (∀ (p : PHASEREG) (a : FREQADJUSTMODE),
      (setFreqAdjustMode a (selectPhaseReg p g)).configReg
        = (selectPhaseReg p (setFreqAdjustMode a g)).configReg) ∧
    (∀ ops1 ops2 : List Op,
      (∀ op ∈ ops1, op.isMutator = true) → (∀ op ∈ ops2, op.isMutator = true) →
      lastSetMode ops1 = lastSetMode ops2 →
      lastSelectFreqReg ops1 = lastSelectFreqReg ops2 →
      lastSelectPhaseReg ops1 = lastSelectPhaseReg ops2 →
      lastSetFreqAdjustMode ops1 = lastSetFreqAdjustMode ops2 →
      (runOps ops1 g).configReg = (runOps ops2 g).configReg) := by
  refine ⟨fun m r => ?_, fun m r => ?_, fun m a => ?_, fun r p => ?_, fun r a => ?_,
    fun p a => ?_, fun ops1 ops2 hm1 hm2 e1 e2 e3 e4 =>
      shadow_of_last_args g h ops1 ops2 hm1 hm2 e1 e2 e3 e4⟩
  · exact shadow_of_last_args g h [Op.setMode m, Op.selectFreqReg r]
      [Op.selectFreqReg r, Op.setMode m] (two_mutators _ _ rfl rfl) (two_mutators _ _ rfl rfl)
      rfl rfl rfl rfl
  · exact shadow_of_last_args g h [Op.setMode m, Op.selectPhaseReg r]
      [Op.selectPhaseReg r, Op.setMode m] (two_mutators _ _ rfl rfl) (two_mutators _ _ rfl rfl)
      rfl rfl rfl rfl
  · exact shadow_of_last_args g h [Op.setMode m, Op.setFreqAdjustMode a]
      [Op.setFreqAdjustMode a, Op.setMode m] (two_mutators _ _ rfl rfl)
      (two_mutators _ _ rfl rfl) rfl rfl rfl rfl
  · exact shadow_of_last_args g h [Op.selectFreqReg r, Op.selectPhaseReg p]
      [Op.selectPhaseReg p, Op.selectFreqReg r] (two_mutators _ _ rfl rfl)
      (two_mutators _ _ rfl rfl) rfl rfl rfl rfl
  · exact shadow_of_last_args g h [Op.selectFreqReg r, Op.setFreqAdjustMode a]
      [Op.setFreqAdjustMode a, Op.selectFreqReg r] (two_mutators _ _ rfl rfl)
      (two_mutators _ _ rfl rfl) rfl rfl rfl rfl
  · exact shadow_of_last_args g h [Op.selectPhaseReg p, Op.setFreqAdjustMode a]
      [Op.setFreqAdjustMode a, Op.selectPhaseReg p] (two_mutators _ _ rfl rfl)
      (two_mutators _ _ rfl rfl) rfl rfl rfl rfl

/-- C8, witness for `mutators_commute`: a new driver, `setMode( SQUARE)` and
`selectFreqReg( FREQ1)` in both orders, and two sequences with the same last
arguments. -/
theorem mutators_commute_witness :
    (selectFreqReg FREQREG.FREQ1 (setMode MODE.SQUARE (init 10))).configReg
      = (setMode MODE.SQUARE (selectFreqReg FREQREG.FREQ1 (init 10))).configReg ∧
    (runOps [Op.setMode MODE.TRIANGLE, Op.selectFreqReg FREQREG.FREQ1, Op.setMode MODE.SQUARE]
        (init 10)).configReg
      = (runOps [Op.setMode MODE.SQUARE, Op.selectFreqReg FREQREG.FREQ1] (init 10)).configReg :=
  have w := mutators_commute (init 10) (by decide)
  ⟨w.1 MODE.SQUARE FREQREG.FREQ1,
   w.2.2.2.2.2.2 [Op.setMode MODE.TRIANGLE, Op.selectFreqReg FREQREG.FREQ1, Op.setMode MODE.SQUARE]
     [Op.setMode MODE.SQUARE, Op.selectFreqReg FREQREG.FREQ1]
     (by decide) (by decide) (by decide) (by decide) (by decide) (by decide)⟩

/-! ## C10: the frequency converter

`freqCalc` converts with a C cast, which drops the fractional part; it does not
round to the nearest integer. -/

/-- C12: for both phase registers and every value `p`,
`adjustPhaseShift( reg, p)` adds exactly one transaction of exactly one word to
the log: `0xC000 | (p & 0x0FFF)` for `PHASE0` and `0xE000 | (p & 0x0FFF)` for
`PHASE1`; the payload is `p` masked to 12 bits. -/
theorem adjustPhaseShift_words (p : Nat) (g : MiniGen) :
    (emitted (adjustPhaseShift PHASEREG.PHASE0 p) g
        = transactionOf g._FSYNCPin [0xC000 ||| (p &&& 0x0FFF)]
      ∧ transactions g._FSYNCPin (emitted (adjustPhaseShift PHASEREG.PHASE0 p) g)
        = some [[0xC000 ||| (p &&& 0x0FFF)]]
      ∧ (0xC000 ||| (p &&& 0x0FFF)) &&& 0x0FFF = p &&& 0x0FFF) ∧
    (emitted (adjustPhaseShift PHASEREG.PHASE1 p) g
        = transactionOf g._FSYNCPin [0xE000 ||| (p &&& 0x0FFF)]
      ∧ transactions g._FSYNCPin (emitted (adjustPhaseShift PHASEREG.PHASE1 p) g)
        = some [[0xE000 ||| (p &&& 0x0FFF)]]
      ∧ (0xE000 ||| (p &&& 0x0FFF)) &&& 0x0FFF = p &&& 0x0FFF) := by
  refine ⟨⟨?_, ?_, (phase0_word_facts p).2.2⟩, ⟨?_, ?_, (phase1_word_facts p).2.2⟩⟩
  · exact emitted_of_bus (adjustPhaseShift_bus PHASEREG.PHASE0 p g)
  · exact (adjustPhaseShift_delivers PHASEREG.PHASE0 p g).to_transactions
  · exact emitted_of_bus (adjustPhaseShift_bus PHASEREG.PHASE1 p g)
  · exact (adjustPhaseShift_delivers PHASEREG.PHASE1 p g).to_transactions

/-- C18: for both frequency registers and every value `h`, the 16-bit
`adjustFreq( reg, h)` adds exactly one transaction of exactly one word to the
log, `0x4000 | (h & 0x3FFF)` for `FREQ0` and `0x8000 | (h & 0x3FFF)` for
`FREQ1`, whatever the shadow (and so its granularity bits) is. -/
theorem adjustFreq_u16_words (h : Nat) (g : MiniGen) :
    (emitted (adjustFreq_u16 FREQREG.FREQ0 h) g
        = transactionOf g._FSYNCPin [0x4000 ||| (h &&& 0x3FFF)]
      ∧ transactions g._FSYNCPin (emitted (adjustFreq_u16 FREQREG.FREQ0 h) g)
        = some [[0x4000 ||| (h &&& 0x3FFF)]]
      ∧ (0x4000 ||| (h &&& 0x3FFF)) >>> 14 = 1
      ∧ (0x4000 ||| (h &&& 0x3FFF)) &&& 0x3FFF = h &&& 0x3FFF) ∧
    (emitted (adjustFreq_u16 FREQREG.FREQ1 h) g
        = transactionOf g._FSYNCPin [0x8000 ||| (h &&& 0x3FFF)]
      ∧ transactions g._FSYNCPin (emitted (adjustFreq_u16 FREQREG.FREQ1 h) g)
        = some [[0x8000 ||| (h &&& 0x3FFF)]]
      ∧ (0x8000 ||| (h &&& 0x3FFF)) >>> 14 = 2
      ∧ (0x8000 ||| (h &&& 0x3FFF)) &&& 0x3FFF = h &&& 0x3FFF) := by
  have a := freq0_word_facts h
  have b := freq1_word_facts h
  refine ⟨⟨?_, ?_, a.2.1, a.2.2⟩, ⟨?_, ?_, b.2.1, b.2.2⟩⟩
  · exact emitted_of_bus (adjustFreq_u16_bus FREQREG.FREQ0 h g)
  · exact (adjustFreq_u16_delivers FREQREG.FREQ0 h g).to_transactions
  · exact emitted_of_bus (adjustFreq_u16_bus FREQREG.FREQ1 h g)
  · exact (adjustFreq_u16_delivers FREQREG.FREQ1 h g).to_transactions

/-! ## C20: the plain writes leave the shadow alone -/

theorem isConfigWord_false_iff (w : Nat) : isConfigWord w = false ↔ w >>> 14 ≠ 0 := by
  unfold isConfigWord
  simp

/-- C20: for every shadow value and every argument, the plain frequency writes
(32-bit and 16-bit) and the phase write leave `configReg` as it was; every word
they send has bits 15:14 different from 00, so none is addressed to the
configuration register; and the events they add to the log are the same
whatever the shadow is. -/
theorem plain_writes_frame (g : MiniGen) (s v : Nat) :
    (∀ r : FREQREG,
      (adjustFreq_u32 r v g).configReg = g.configReg
      ∧ (∃ w1 w2, transactions g._FSYNCPin (emitted (adjustFreq_u32 r v) g) = some [[w1, w2]]
          ∧ w1 >>> 14 ≠ 0 ∧ w2 >>> 14 ≠ 0
          ∧ isConfigWord w1 = false ∧ isConfigWord w2 = false)
      ∧ emitted (adjustFreq_u32 r v) { g with configReg := s }
          = emitted (adjustFreq_u32 r v) g) ∧
    (∀ r : FREQREG,
      (adjustFreq_u16 r v g).configReg = g.configReg
      ∧ (∃ w, transactions g._FSYNCPin (emitted (adjustFreq_u16 r v) g) = some [[w]]
          ∧ w >>> 14 ≠ 0 ∧ isConfigWord w = false)
      ∧ emitted (adjustFreq_u16 r v) { g with configReg := s }
          = emitted (adjustFreq_u16 r v) g) ∧
    (∀ r : PHASEREG,
      (adjustPhaseShift r v g).configReg = g.configReg
      ∧ (∃ w, transactions g._FSYNCPin (emitted (adjustPhaseShift r v) g) = some [[w]]
          ∧ w >>> 14 ≠ 0 ∧ isConfigWord w = false)
      ∧ emitted (adjustPhaseShift r v) { g with configReg := s }
          = emitted (adjustPhaseShift r v) g) := by
  refine ⟨fun r => ⟨adjustFreq_u32_configReg r v g, ?_, ?_⟩,
    fun r => ⟨adjustFreq_u16_configReg r v g, ?_, ?_⟩,
    fun r => ⟨adjustPhaseShift_configReg r v g, ?_, ?_⟩⟩
  · have d := (adjustFreq_u32_delivers r v g).to_transactions
    cases r
    · exact ⟨_, _, d, (isConfigWord_false_iff _).mp (isConfigWord_freq0 _),
        (isConfigWord_false_iff _).mp (isConfigWord_freq0 _),
        isConfigWord_freq0 _, isConfigWord_freq0 _⟩
    · exact ⟨_, _, d, (isConfigWord_false_iff _).mp (isConfigWord_freq1 _),
        (isConfigWord_false_iff _).mp (isConfigWord_freq1 _),
        isConfigWord_freq1 _, isConfigWord_freq1 _⟩
  · rw [emitted_of_bus (adjustFreq_u32_bus r v g),
      emitted_of_bus (adjustFreq_u32_bus r v { g with configReg := s })]
  · have d := (adjustFreq_u16_delivers r v g).to_transactions
    cases r
    · exact ⟨_, d, (isConfigWord_false_iff _).mp (isConfigWord_freq0 _), isConfigWord_freq0 _⟩
    · exact ⟨_, d, (isConfigWord_false_iff _).mp (isConfigWord_freq1 _), isConfigWord_freq1 _⟩
  · rw [emitted_of_bus (adjustFreq_u16_bus r v g),
      emitted_of_bus (adjustFreq_u16_bus r v { g with configReg := s })]
  · have d := (adjustPhaseShift_delivers r v g).to_transactions
    cases r
    · exact ⟨_, d, (isConfigWord_false_iff _).mp (isConfigWord_phase0 _), isConfigWord_phase0 _⟩
    · exact ⟨_, d, (isConfigWord_false_iff _).mp (isConfigWord_phase1 _), isConfigWord_phase1 _⟩
  · rw [emitted_of_bus (adjustPhaseShift_bus r v g),
      emitted_of_bus (adjustPhaseShift_bus r v { g with configReg := s })]

/-! ## C11: the writes with a mode change are compositions -/

theorem emitted_comp (f1 f2 : MiniGen → MiniGen) {g : MiniGen} {es1 es2 : List BusEvent}
    (h1 : (f1 g).bus = g.bus ++ es1) (h2 : (f2 (f1 g)).bus = (f1 g).bus ++ es2) :
    emitted (fun x => f2 (f1 x)) g = es1 ++ es2 := by
  apply emitted_of_bus
  show (f2 (f1 g)).bus = _
  rw [h2, h1, List.append_assoc]

/-- C11: for every shadow, register, mode and value, each overload
`adjustFreq( reg, m, v)` (32-bit and 16-bit) adds to the log the events of
`setFreqAdjustMode( m)`, which are one complete transaction, followed by the
events of the plain write of the same width made in the state after the mode
change, which are a second complete transaction (and are the same as the plain
write would add in the original state); the device receives the two
transactions in this order, and the final shadow is the shadow after
`setFreqAdjustMode( m)` alone. -/
theorem adjustFreq_mode_composition (r : FREQREG) (m : FREQADJUSTMODE) (v : Nat) (g : MiniGen) :
    (emitted (adjustFreq_mode_u32 r m v) g
        = emitted (setFreqAdjustMode m) g ++ emitted (adjustFreq_u32 r v) (setFreqAdjustMode m g)
      ∧ emitted (adjustFreq_u32 r v) (setFreqAdjustMode m g) = emitted (adjustFreq_u32 r v) g
      ∧ (∃ c ws, transactions g._FSYNCPin (emitted (setFreqAdjustMode m) g) = some [c]
          ∧ transactions g._FSYNCPin (emitted (adjustFreq_u32 r v) g) = some [ws]
          ∧ transactions g._FSYNCPin (emitted (adjustFreq_mode_u32 r m v) g) = some [c, ws])
      ∧ (adjustFreq_mode_u32 r m v g).configReg = (setFreqAdjustMode m g).configReg) ∧
    (emitted (adjustFreq_mode_u16 r m v) g
        = emitted (setFreqAdjustMode m) g ++ emitted (adjustFreq_u16 r v) (setFreqAdjustMode m g)
      ∧ emitted (adjustFreq_u16 r v) (setFreqAdjustMode m g) = emitted (adjustFreq_u16 r v) g
      ∧ (∃ c ws, transactions g._FSYNCPin (emitted (setFreqAdjustMode m) g) = some [c]
          ∧ transactions g._FSYNCPin (emitted (adjustFreq_u16 r v) g) = some [ws]
          ∧ transactions g._FSYNCPin (emitted (adjustFreq_mode_u16 r m v) g) = some [c, ws])
      ∧ (adjustFreq_mode_u16 r m v g).configReg = (setFreqAdjustMode m g).configReg) := by
  have hp := setFreqAdjustMode_pin m g
  have b1 := setFreqAdjustMode_bus m g
  have b32 := adjustFreq_u32_bus r v (setFreqAdjustMode m g)
  have b16 := adjustFreq_u16_bus r v (setFreqAdjustMode m g)
  refine ⟨⟨?_, ?_, ⟨_, _, (setFreqAdjustMode_delivers m g).to_transactions,
      (adjustFreq_u32_delivers r v g).to_transactions,
      (adjustFreq_mode_u32_delivers r m v g).to_transactions⟩,
      adjustFreq_u32_configReg r v _⟩,
    ⟨?_, ?_, ⟨_, _, (setFreqAdjustMode_delivers m g).to_transactions,
      (adjustFreq_u16_delivers r v g).to_transactions,
      (adjustFreq_mode_u16_delivers r m v g).to_transactions⟩,
      adjustFreq_u16_configReg r v _⟩⟩
  · rw [emitted_of_bus b1, emitted_of_bus b32]
    exact emitted_comp (setFreqAdjustMode m) (adjustFreq_u32 r v) b1 b32
  · rw [emitted_of_bus b32, emitted_of_bus (adjustFreq_u32_bus r v g), hp]
  · rw [emitted_of_bus b1, emitted_of_bus b16]
    exact emitted_comp (setFreqAdjustMode m) (adjustFreq_u16 r v) b1 b16
  · rw [emitted_of_bus b16, emitted_of_bus (adjustFreq_u16_bus r v g), hp]

/-! ## C14: the two halves of a full-width write -/

/-- Two 14-bit payloads, low then high, put together again. -/
theorem recombine (v : Nat) :
    (v &&& 0x3FFF) ||| (((v >>> 14) &&& 0x3FFF) <<< 14) = v % 2 ^ 28 := by
  have hlow : v &&& 0x3FFF < 2 ^ 14 := config_word_lt v
  have e := Nat.mul_add_lt_is_or hlow ((v >>> 14) &&& 0x3FFF)
  rw [Nat.shiftLeft_eq, Nat.lor_comm, Nat.mul_comm, ← e, and_3FFF, and_3FFF,
    Nat.shiftRight_eq_div_pow]
  omega

theorem low_payload_mod (v : Nat) : (v % 2 ^ 28) &&& 0x3FFF = v &&& 0x3FFF := by
  rw [and_3FFF, and_3FFF]
  omega

theorem high_payload_mod (v : Nat) :
    ((v % 2 ^ 28) >>> 14) &&& 0x3FFF = (v >>> 14) &&& 0x3FFF := by
  rw [and_3FFF, and_3FFF, Nat.shiftRight_eq_div_pow, Nat.shiftRight_eq_div_pow]
  omega

/-- C14: for every value `v` (32-bit or not) and both registers, the full-width write is
carried out (one transaction of two words is sent, whatever `v` is); the
payloads of the two words, recombined as `low | (high << 14)`, give
`v mod 2 ^ 28`, which is `v` itself when `v < 2 ^ 28`; and bits 28..31 of `v`
change nothing in what is sent. -/
theorem full_write_recombines (r : FREQREG) (v : Nat) (g : MiniGen) :
    ∃ w1 w2,
      transactions g._FSYNCPin (emitted (adjustFreq_u32 r v) g) = some [[w1, w2]]
      ∧ (w1 &&& 0x3FFF) ||| ((w2 &&& 0x3FFF) <<< 14) = v % 2 ^ 28
      ∧ (v < 2 ^ 28 → (w1 &&& 0x3FFF) ||| ((w2 &&& 0x3FFF) <<< 14) = v)
      ∧ emitted (adjustFreq_u32 r (v % 2 ^ 28)) g = emitted (adjustFreq_u32 r v) g := by
  have d := (adjustFreq_u32_delivers r v g).to_transactions
  have hind : emitted (adjustFreq_u32 r (v % 2 ^ 28)) g = emitted (adjustFreq_u32 r v) g := by
    rw [emitted_of_bus (adjustFreq_u32_bus r (v % 2 ^ 28) g),
      emitted_of_bus (adjustFreq_u32_bus r v g), low_payload_mod, high_payload_mod]
  cases r
  · refine ⟨_, _, d, ?_, fun h28 => ?_, hind⟩
    · rw [(freq0_word_facts v).2.2, (freq0_word_facts (v >>> 14)).2.2]
      exact recombine v
    · rw [(freq0_word_facts v).2.2, (freq0_word_facts (v >>> 14)).2.2, recombine v]
      exact Nat.mod_eq_of_lt h28
  · refine ⟨_, _, d, ?_, fun h28 => ?_, hind⟩
    · rw [(freq1_word_facts v).2.2, (freq1_word_facts (v >>> 14)).2.2]
      exact recombine v
    · rw [(freq1_word_facts v).2.2, (freq1_word_facts (v >>> 14)).2.2, recombine v]
      exact Nat.mod_eq_of_lt h28

/-- C14, witness for `full_write_recombines`: the value 1000000, below
`2 ^ 28`, written to `FREQ1` of a new driver, comes back whole. -/
theorem full_write_recombines_witness :
    (1000000 : Nat) < 2 ^ 28 ∧
    ∃ w1 w2,
      transactions 10 (emitted (adjustFreq_u32 FREQREG.FREQ1 1000000) (init 10))
        = some [[w1, w2]]
      ∧ (w1 &&& 0x3FFF) ||| ((w2 &&& 0x3FFF) <<< 14) = 1000000 :=
  ⟨by decide,
   (full_write_recombines FREQREG.FREQ1 1000000 (init 10)).elim fun w1 h1 =>
     h1.elim fun w2 h2 => ⟨w1, w2, h2.1, h2.2.2.1 (by decide)⟩⟩

/-! ## C15: the destination tags do not collide -/

theorem sentWord_writeData (w : Nat) (h : w < 65536) (g : MiniGen) :
    sentWord (writeData w) g = some w := by
  unfold sentWord
  rw [rx_writeData g [] [] w h]
  rfl

/-- The word each encoder sends, located by its bits 15:12. -/
theorem encoder_tag (e : Encoder) (p : Nat) (g : MiniGen) :
    ∃ w, sentWord (e.write p) g = some w ∧ w < 65536 ∧
      match e with
      | Encoder.config => w >>> 12 < 4
      | Encoder.freq0 => 4 ≤ w >>> 12 ∧ w >>> 12 < 8
      | Encoder.freq1 => 8 ≤ w >>> 12 ∧ w >>> 12 < 12
      | Encoder.phase0 => w >>> 12 = 12
      | Encoder.phase1 => w >>> 12 = 14 := by
  cases e with
  | config =>
    have hl := config_word_lt p
    have hf : writeConfig p = writeData (p &&& 0x3FFF) :=
      funext fun x => by simp only [writeConfig, and_compl16_C000, and_3FFF]
    refine ⟨p &&& 0x3FFF, ?_, by omega, ?_⟩
    · show sentWord (writeConfig p) g = _
      rw [hf]; exact sentWord_writeData _ (by omega) g
    · show (p &&& 0x3FFF) >>> 12 < 4
      rw [Nat.shiftRight_eq_div_pow]; omega
  | freq0 =>
    have hw := freq0_word_facts p
    have hf : writeFreq0 p = writeData (0x4000 ||| (p &&& 0x3FFF)) :=
      funext fun x => by simp only [writeFreq0, freq0_word]
    refine ⟨0x4000 ||| (p &&& 0x3FFF), ?_, hw.1, ?_⟩
    · show sentWord (writeFreq0 p) g = _
      rw [hf]; exact sentWord_writeData _ hw.1 g
    · have h14 := hw.2.1
      show 4 ≤ (0x4000 ||| (p &&& 0x3FFF)) >>> 12 ∧ (0x4000 ||| (p &&& 0x3FFF)) >>> 12 < 8
      rw [Nat.shiftRight_eq_div_pow] at h14 ⊢
      omega
  | freq1 =>
    have hw := freq1_word_facts p
    have hf : writeFreq1 p = writeData (0x8000 ||| (p &&& 0x3FFF)) :=
      funext fun x => by simp only [writeFreq1, freq1_word]
    refine ⟨0x8000 ||| (p &&& 0x3FFF), ?_, hw.1, ?_⟩
    · show sentWord (writeFreq1 p) g = _
      rw [hf]; exact sentWord_writeData _ hw.1 g
    · have h14 := hw.2.1
      show 8 ≤ (0x8000 ||| (p &&& 0x3FFF)) >>> 12 ∧ (0x8000 ||| (p &&& 0x3FFF)) >>> 12 < 12
      rw [Nat.shiftRight_eq_div_pow] at h14 ⊢
      omega
  | phase0 =>
    have hw := phase0_word_facts p
    have hf : writePhase0 p = writeData (0xC000 ||| (p &&& 0x0FFF)) :=
      funext fun x => by simp only [writePhase0, phase0_word]
    refine ⟨0xC000 ||| (p &&& 0x0FFF), ?_, hw.1, hw.2.1⟩
    show sentWord (writePhase0 p) g = _
    rw [hf]; exact sentWord_writeData _ hw.1 g
  | phase1 =>
    have hw := phase1_word_facts p
    have hf : writePhase1 p = writeData (0xE000 ||| (p &&& 0x0FFF)) :=
      funext fun x => by simp only [writePhase1, phase1_word]
    refine ⟨0xE000 ||| (p &&& 0x0FFF), ?_, hw.1, hw.2.1⟩
    show sentWord (writePhase1 p) g = _
    rw [hf]; exact sentWord_writeData _ hw.1 g

/-- C15: for every two encoders among `writeConfig`, `writeFreq0`, `writeFreq1`,
`writePhase0`, `writePhase1`, every two payloads `p`, `q` and every two states,
each encoder sends one word; when the encoders are different the two words
differ, already in their bits 15:12; so whenever the two words agree on bits
15:12 they come from the same encoder. -/
theorem tags_do_not_collide (e1 e2 : Encoder) (p q : Nat) (g1 g2 : MiniGen) :
    ∃ w1 w2, sentWord (e1.write p) g1 = some w1 ∧ sentWord (e2.write q) g2 = some w2 ∧
      (e1 ≠ e2 → w1 >>> 12 ≠ w2 >>> 12 ∧ w1 ≠ w2) ∧
      (w1 >>> 12 = w2 >>> 12 → e1 = e2) := by
  obtain ⟨w1, h1, _, t1⟩ := encoder_tag e1 p g1
  obtain ⟨w2, h2, _, t2⟩ := encoder_tag e2 q g2
  have key : w1 >>> 12 = w2 >>> 12 → e1 = e2 := by
    intro h
    cases e1 <;> cases e2 <;> simp only [] at t1 t2 <;> first | rfl | omega
  refine ⟨w1, w2, h1, h2, fun hne => ⟨fun h => hne (key h), fun h => hne (key (by rw [h]))⟩, key⟩

/-- C15, witness for `tags_do_not_collide`: `writePhase0` and `writeFreq1` on a
new driver, with payloads that fill every payload bit. -/
theorem tags_do_not_collide_witness :
    ∃ w1 w2, sentWord (writePhase0 0xFFFF) (init 10) = some w1 ∧
      sentWord (writeFreq1 0xFFFF) (init 10) = some w2 ∧ w1 >>> 12 ≠ w2 >>> 12 ∧ w1 ≠ w2 :=
  (tags_do_not_collide Encoder.phase0 Encoder.freq1 0xFFFF 0xFFFF (init 10) (init 10)).elim
    fun w1 h1 => h1.elim fun w2 h2 =>
      ⟨w1, w2, h2.1, h2.2.1, (h2.2.2.1 (by decide)).1, (h2.2.2.1 (by decide)).2⟩

/-! ## C16: every call is a sequence of well-formed transactions -/

theorem Sends.nil (g : MiniGen) : Sends g g [] :=
  ⟨rfl, by simp, fun _ h => absurd h (List.not_mem_nil _)⟩

theorem Sends.append {g g1 g2 : MiniGen} {t1 t2 : List (List Nat)}
    (h1 : Sends g g1 t1) (h2 : Sends g1 g2 t2) : Sends g g2 (t1 ++ t2) := by
  obtain ⟨p1, b1, w1⟩ := h1
  obtain ⟨p2, b2, w2⟩ := h2
  refine ⟨p2.trans p1, ?_, fun ws hws => ?_⟩
  · rw [b2, b1, p1, List.flatMap_append, List.append_assoc]
  · rcases List.mem_append.mp hws with h | h
    · exact w1 ws h
    · exact w2 ws h

theorem Sends.single {g g1 : MiniGen} {ws : List Nat}
    (hp : g1._FSYNCPin = g._FSYNCPin)
    (hb : g1.bus = g.bus ++ transactionOf g._FSYNCPin ws) (hne : ws ≠ [])
    (hw : ∀ w ∈ ws, w < 65536) : Sends g g1 [ws] := by
  refine ⟨hp, by simpa using hb, fun vs hvs => ?_⟩
  rw [List.mem_singleton] at hvs
  subst hvs
  exact ⟨hne, hw⟩

theorem rxRun_transactions (pin : Int) (done txs : List (List Nat))
    (h : ∀ ws ∈ txs, ws ≠ [] ∧ ∀ w ∈ ws, w < 65536) :
    rxRun pin { done := done, line := Line.idle } (txs.flatMap (transactionOf pin))
      = some { done := done ++ txs, line := Line.idle } := by
  induction txs generalizing done with
  | nil => simp [rxRun]
  | cons ws txs ih =>
    rw [List.flatMap_cons, rxRun_append,
      rxRun_transactionOf pin done ws (h ws (List.mem_cons_self _ _)).2]
    simp only [Option.bind]
    rw [ih (done ++ [ws]) (fun vs hvs => h vs (List.mem_cons_of_mem _ hvs))]
    simp

theorem Sends.received {g : MiniGen} {txs : List (List Nat)} {f : MiniGen → MiniGen}
    (h : Sends g (f g) txs) : transactions g._FSYNCPin (emitted f g) = some txs := by
  obtain ⟨_, hb, hw⟩ := h
  rw [emitted_of_bus hb]
  unfold MiniGen.transactions
  rw [rxRun_transactions _ [] txs hw]
  rfl

theorem freq_words_lt (r : FREQREG) (v : Nat) :
    ∀ w ∈ (if r = FREQREG.FREQ0 then
          [0x4000 ||| (v &&& 0x3FFF), 0x4000 ||| ((v >>> 14) &&& 0x3FFF)]
        else [0x8000 ||| (v &&& 0x3FFF), 0x8000 ||| ((v >>> 14) &&& 0x3FFF)]), w < 65536 := by
  intro w hw
  cases r
  · simp only [if_true, List.mem_cons, List.mem_singleton, List.not_mem_nil, or_false] at hw
    rcases hw with rfl | rfl
    · exact (freq0_word_facts v).1
    · exact (freq0_word_facts _).1
  · simp only [reduceCtorEq, if_false, List.mem_cons, List.mem_singleton, List.not_mem_nil,
      or_false] at hw
    rcases hw with rfl | rfl
    · exact (freq1_word_facts v).1
    · exact (freq1_word_facts _).1

theorem freq_word_lt (r : FREQREG) (h : Nat) :
    ∀ w ∈ [if r = FREQREG.FREQ0 then 0x4000 ||| (h &&& 0x3FFF) else 0x8000 ||| (h &&& 0x3FFF)],
      w < 65536 := by
  intro w hw
  rw [List.mem_singleton] at hw
  subst hw
  cases r
  · exact (freq0_word_facts h).1
  · exact (freq1_word_facts h).1

theorem phase_word_lt (r : PHASEREG) (p : Nat) :
    ∀ w ∈ [if r = PHASEREG.PHASE0 then 0xC000 ||| (p &&& 0x0FFF)
            else 0xE000 ||| (p &&& 0x0FFF)], w < 65536 := by
  intro w hw
  rw [List.mem_singleton] at hw
  subst hw
  cases r
  · exact (phase0_word_facts p).1
  · exact (phase1_word_facts p).1

theorem freq_words_ne_nil (r : FREQREG) (v : Nat) :
    (if r = FREQREG.FREQ0 then
        [0x4000 ||| (v &&& 0x3FFF), 0x4000 ||| ((v >>> 14) &&& 0x3FFF)]
      else [0x8000 ||| (v &&& 0x3FFF), 0x8000 ||| ((v >>> 14) &&& 0x3FFF)]) ≠ [] := by
  cases r <;> simp

theorem setFreqAdjustMode_sends (m : FREQADJUSTMODE) (g : MiniGen) :
    Sends g (setFreqAdjustMode m g) [[(setFreqAdjustMode m g).configReg &&& 0x3FFF]] :=
  Sends.single (setFreqAdjustMode_pin m g) (setFreqAdjustMode_bus m g)
    (List.cons_ne_nil _ _) (fun _ hw => config_word_mem_lt hw)

theorem adjustFreq_u32_sends (r : FREQREG) (v : Nat) (g : MiniGen) :
    Sends g (adjustFreq_u32 r v g)
      [if r = FREQREG.FREQ0 then
          [0x4000 ||| (v &&& 0x3FFF), 0x4000 ||| ((v >>> 14) &&& 0x3FFF)]
        else [0x8000 ||| (v &&& 0x3FFF), 0x8000 ||| ((v >>> 14) &&& 0x3FFF)]] :=
  Sends.single (adjustFreq_u32_pin r v g) (adjustFreq_u32_bus r v g)
    (freq_words_ne_nil r v) (freq_words_lt r v)

theorem adjustFreq_u16_sends (r : FREQREG) (h : Nat) (g : MiniGen) :
    Sends g (adjustFreq_u16 r h g)
      [[if r = FREQREG.FREQ0 then 0x4000 ||| (h &&& 0x3FFF) else 0x8000 ||| (h &&& 0x3FFF)]] :=
  Sends.single (adjustFreq_u16_pin r h g) (adjustFreq_u16_bus r h g)
    (List.cons_ne_nil _ _) (freq_word_lt r h)

theorem adjustPhaseShift_sends (r : PHASEREG) (p : Nat) (g : MiniGen) :
    Sends g (adjustPhaseShift r p g)
      [[if r = PHASEREG.PHASE0 then 0xC000 ||| (p &&& 0x0FFF) else 0xE000 ||| (p &&& 0x0FFF)]] :=
  Sends.single (adjustPhaseShift_pin r p g) (adjustPhaseShift_bus r p g)
    (List.cons_ne_nil _ _) (phase_word_lt r p)

theorem raw_reset_sends (g : MiniGen) :
    Sends g (writeEnd (writeData 0x0000 (writeData 0x0100 (writeStart g))))
      [[0x0100, 0x0000]] := by
  refine Sends.single rfl ?_ (List.cons_ne_nil _ _) ?_
  · simp [writeEnd, writeData, writeStart, transactionOf, frameOf]
  · intro w hw
    simp only [List.mem_cons, List.mem_singleton, List.not_mem_nil, or_false] at hw
    rcases hw with rfl | rfl <;> decide

/-- What every call adds to the log: the events of a non-empty sequence of
transactions, each with at least one 16-bit word. -/
theorem sends_summary (op : Op) (g : MiniGen) :
    ∃ txs, Sends g (op.run g) txs ∧ txs ≠ [] := by
  cases op with
  | reset =>
    exact ⟨_, (((((setFreqAdjustMode_sends _ g).append (adjustFreq_u32_sends _ _ _)).append
      ((setFreqAdjustMode_sends _ _).append (adjustFreq_u32_sends _ _ _))).append
      (adjustPhaseShift_sends _ _ _)).append (adjustPhaseShift_sends _ _ _)).append
      (raw_reset_sends _), by simp⟩
  | setMode m =>
    exact ⟨_, Sends.single (setMode_pin m g) (setMode_bus m g) (List.cons_ne_nil _ _)
      (fun _ hw => config_word_mem_lt hw), List.cons_ne_nil _ _⟩
  | selectFreqReg r =>
    exact ⟨_, Sends.single (selectFreqReg_pin r g) (selectFreqReg_bus r g)
      (List.cons_ne_nil _ _) (fun _ hw => config_word_mem_lt hw), List.cons_ne_nil _ _⟩
  | selectPhaseReg r =>
    exact ⟨_, Sends.single (selectPhaseReg_pin r g) (selectPhaseReg_bus r g)
      (List.cons_ne_nil _ _) (fun _ hw => config_word_mem_lt hw), List.cons_ne_nil _ _⟩
  | setFreqAdjustMode m => exact ⟨_, setFreqAdjustMode_sends m g, List.cons_ne_nil _ _⟩
  | adjustPhaseShift r p => exact ⟨_, adjustPhaseShift_sends r p g, List.cons_ne_nil _ _⟩
  | adjustFreq_mode_u32 r m v =>
    exact ⟨_, (setFreqAdjustMode_sends m g).append (adjustFreq_u32_sends r v _), by simp⟩
  | adjustFreq_mode_u16 r m v =>
    exact ⟨_, (setFreqAdjustMode_sends m g).append (adjustFreq_u16_sends r v _), by simp⟩
  | adjustFreq_u32 r v => exact ⟨_, adjustFreq_u32_sends r v g, List.cons_ne_nil _ _⟩
  | adjustFreq_u16 r v => exact ⟨_, adjustFreq_u16_sends r v g, List.cons_ne_nil _ _⟩

/-- C16: for every public operation and every state, the events added to the
log are those of a non-empty sequence of transactions, each made of begin, one
frame for each of its one or more words, end; a frame of a 16-bit word is
exactly select line low, transfer of `word >> 8`, transfer of the low byte,
select line high; and the receiver, which rejects a select-low outside a
begin/end bracket and an end while the select line is low, accepts the events
as exactly these transactions. -/
theorem operations_well_bracketed (op : Op) (g : MiniGen) :
    ∃ txs : List (List Nat),
      emitted op.run g = txs.flatMap (transactionOf g._FSYNCPin)
      ∧ txs ≠ []
      ∧ (∀ ws ∈ txs, ws ≠ [] ∧ ∀ w ∈ ws, w < 65536)
      ∧ (∀ ws, transactionOf g._FSYNCPin ws
          = [BusEvent.beginTransaction 10000000] ++ ws.flatMap (frameOf g._FSYNCPin)
              ++ [BusEvent.endTransaction])
      ∧ (∀ w, w < 65536 → frameOf g._FSYNCPin w
          = [BusEvent.digitalWrite g._FSYNCPin Level.LOW, BusEvent.transfer (w >>> 8),
             BusEvent.transfer (w % 256), BusEvent.digitalWrite g._FSYNCPin Level.HIGH])
      ∧ transactions g._FSYNCPin (emitted op.run g) = some txs := by
  obtain ⟨txs, hs, hne⟩ := sends_summary op g
  refine ⟨txs, emitted_of_bus hs.2.1, hne, hs.2.2, fun _ => rfl, fun w hw => ?_,
    hs.received⟩
  have e : (w >>> 8) % 256 = w >>> 8 := by
    rw [Nat.shiftRight_eq_div_pow]
    omega
  simp only [frameOf, e]

/-! ## The shape of every reachable shadow (for C17 and C19) -/

theorem ShadowInv.lt {s : Nat} (h : ShadowInv s) : s < 2 ^ 14 := by
  apply Nat.lt_pow_two_of_testBit
  intro i hi
  by_contra hb
  have ht : s.testBit i = true := by simpa using hb
  have := h.1 i ht
  omega

theorem ShadowInv.lt16 {s : Nat} (h : ShadowInv s) : s < 65536 := by
  have := h.lt
  omega

theorem ShadowInv.zero : ShadowInv 0 := by
  refine ⟨fun i hi => ?_, ?_, ?_⟩
  · rw [Nat.zero_testBit] at hi
    exact absurd hi (by decide)
  · simp
  · simp

theorem setMode_inv (m : MODE) (g : MiniGen) (h : ShadowInv g.configReg) :
    ShadowInv (setMode m g).configReg := by
  have hb := setMode_testBit m g h.lt16
  refine ⟨fun i hi => ?_, ?_, ?_⟩
  · rw [hb i] at hi
    by_cases hf : i = 5 ∨ i = 3 ∨ i = 1
    · omega
    · rw [if_neg hf] at hi
      exact h.1 i hi
  · rw [hb 13, hb 12]
    simpa using h.2.1
  · rw [hb 5, hb 1, if_pos (Or.inl rfl), if_pos (Or.inr (Or.inr rfl))]
    cases m <;> decide

theorem selectFreqReg_inv (r : FREQREG) (g : MiniGen) (h : ShadowInv g.configReg) :
    ShadowInv (selectFreqReg r g).configReg := by
  have hb := selectFreqReg_testBit r g h.lt16
  refine ⟨fun i hi => ?_, ?_, ?_⟩
  · rw [hb i] at hi
    by_cases hf : i = 11
    · omega
    · rw [if_neg hf] at hi
      exact h.1 i hi
  · rw [hb 13, hb 12]
    simpa using h.2.1
  · rw [hb 5, hb 1]
    simpa using h.2.2

theorem selectPhaseReg_inv (r : PHASEREG) (g : MiniGen) (h : ShadowInv g.configReg) :
    ShadowInv (selectPhaseReg r g).configReg := by
  have hb := selectPhaseReg_testBit r g h.lt16
  refine ⟨fun i hi => ?_, ?_, ?_⟩
  · rw [hb i] at hi
    by_cases hf : i = 10
    · omega
    · rw [if_neg hf] at hi
      exact h.1 i hi
  · rw [hb 13, hb 12]
    simpa using h.2.1
  · rw [hb 5, hb 1]
    simpa using h.2.2

theorem setFreqAdjustMode_inv (m : FREQADJUSTMODE) (g : MiniGen) (h : ShadowInv g.configReg) :
    ShadowInv (setFreqAdjustMode m g).configReg := by
  have hb := setFreqAdjustMode_testBit m g h.lt16
  refine ⟨fun i hi => ?_, ?_, ?_⟩
  · rw [hb i] at hi
    by_cases hf : i = 13 ∨ i = 12
    · omega
    · rw [if_neg hf] at hi
      exact h.1 i hi
  · rw [hb 13, hb 12, if_pos (Or.inl rfl), if_pos (Or.inr rfl)]
    cases m <;> decide
  · rw [hb 5, hb 1]
    simpa using h.2.2

theorem config_words_cons (c : Nat) (rest : List (List Nat))
    (hr : ∀ ws ∈ rest, ∀ w ∈ ws, isConfigWord w = false) :
    ∀ w ∈ ([c] :: rest).flatten, isConfigWord w = true → w = c := by
  intro w hw hc
  rw [List.flatten_cons, List.mem_append, List.mem_singleton] at hw
  rcases hw with rfl | hw
  · rfl
  · obtain ⟨ws, hws, hw⟩ := List.mem_flatten.mp hw
    rw [hr ws hws w hw] at hc
    exact absurd hc (by decide)

theorem no_config_words (txs : List (List Nat))
    (hr : ∀ ws ∈ txs, ∀ w ∈ ws, isConfigWord w = false) :
    ∀ w ∈ txs.flatten, isConfigWord w = true → False := by
  intro w hw hc
  obtain ⟨ws, hws, hw⟩ := List.mem_flatten.mp hw
  rw [hr ws hws w hw] at hc
  exact absurd hc (by decide)

/-- One call made in a state whose shadow has the shape `ShadowInv`: the new
shadow has the shape again, and every configuration word sent is a value of
that shape or the reset word `0x0100`. -/
theorem op_inv (op : Op) (g : MiniGen) (h : ShadowInv g.configReg) :
    ∃ new, Delivers g (op.run g) new ∧ ShadowInv (op.run g).configReg ∧
      ∀ w ∈ new.flatten, isConfigWord w = true → ShadowInv w ∨ w = 0x0100 := by
  cases op with
  | reset =>
    have hc := setFreqAdjustMode_inv FREQADJUSTMODE.FULL g h
    have hs : ShadowInv (reset g).configReg := by rw [reset_configReg]; exact hc
    refine ⟨_, reset_delivers g, hs, fun w hw hcw => ?_⟩
    rw [and_3FFF_of_lt hc.lt] at hw
    simp only [List.flatten_cons, List.flatten_nil, List.cons_append, List.nil_append,
      List.append_nil, List.mem_cons, List.not_mem_nil, or_false] at hw
    rcases hw with rfl | rfl | rfl | rfl | rfl | rfl | rfl | rfl | rfl | rfl | rfl
    · exact Or.inl hc
    · rw [isConfigWord_freq0] at hcw; exact absurd hcw (by decide)
    · rw [isConfigWord_freq0] at hcw; exact absurd hcw (by decide)
    · exact Or.inl hc
    · rw [isConfigWord_freq1] at hcw; exact absurd hcw (by decide)
    · rw [isConfigWord_freq1] at hcw; exact absurd hcw (by decide)
    · rw [isConfigWord_phase0] at hcw; exact absurd hcw (by decide)
    · rw [isConfigWord_phase1] at hcw; exact absurd hcw (by decide)
    · exact Or.inr rfl
    · exact Or.inl ShadowInv.zero
  | setMode m =>
    have hc := setMode_inv m g h
    refine ⟨_, setMode_delivers m g, hc, fun w hw hcw => ?_⟩
    rw [and_3FFF_of_lt hc.lt] at hw
    rw [config_words_cons _ [] (by simp) w hw hcw]
    exact Or.inl hc
  | selectFreqReg r =>
    have hc := selectFreqReg_inv r g h
    refine ⟨_, selectFreqReg_delivers r g, hc, fun w hw hcw => ?_⟩
    rw [and_3FFF_of_lt hc.lt] at hw
    rw [config_words_cons _ [] (by simp) w hw hcw]
    exact Or.inl hc
  | selectPhaseReg r =>
    have hc := selectPhaseReg_inv r g h
    refine ⟨_, selectPhaseReg_delivers r g, hc, fun w hw hcw => ?_⟩
    rw [and_3FFF_of_lt hc.lt] at hw
    rw [config_words_cons _ [] (by simp) w hw hcw]
    exact Or.inl hc
  | setFreqAdjustMode m =>
    have hc := setFreqAdjustMode_inv m g h
    refine ⟨_, setFreqAdjustMode_delivers m g, hc, fun w hw hcw => ?_⟩
    rw [and_3FFF_of_lt hc.lt] at hw
    rw [config_words_cons _ [] (by simp) w hw hcw]
    exact Or.inl hc
  | adjustPhaseShift r p =>
    refine ⟨_, adjustPhaseShift_delivers r p g, ?_, fun w hw hcw => ?_⟩
    · show ShadowInv (adjustPhaseShift r p g).configReg
      rw [adjustPhaseShift_configReg]; exact h
    · exact absurd hcw (fun hc => no_config_words _ (phase_word_not_config r p) w hw hc)
  | adjustFreq_mode_u32 r m v =>
    have hc := setFreqAdjustMode_inv m g h
    have e : (adjustFreq_mode_u32 r m v g).configReg = (setFreqAdjustMode m g).configReg :=
      adjustFreq_u32_configReg r v _
    refine ⟨_, adjustFreq_mode_u32_delivers r m v g, ?_, fun w hw hcw => ?_⟩
    · show ShadowInv (adjustFreq_mode_u32 r m v g).configReg
      rw [e]; exact hc
    · rw [and_3FFF_of_lt hc.lt] at hw
      rw [config_words_cons _ _ (freq_words_not_config r v) w hw hcw]
      exact Or.inl hc
  | adjustFreq_mode_u16 r m v =>
    have hc := setFreqAdjustMode_inv m g h
    have e : (adjustFreq_mode_u16 r m v g).configReg = (setFreqAdjustMode m g).configReg :=
      adjustFreq_u16_configReg r v _
    refine ⟨_, adjustFreq_mode_u16_delivers r m v g, ?_, fun w hw hcw => ?_⟩
    · show ShadowInv (adjustFreq_mode_u16 r m v g).configReg
      rw [e]; exact hc
    · rw [and_3FFF_of_lt hc.lt] at hw
      rw [config_words_cons _ _ (freq_word_not_config r v) w hw hcw]
      exact Or.inl hc
  | adjustFreq_u32 r v =>
    refine ⟨_, adjustFreq_u32_delivers r v g, ?_, fun w hw hcw => ?_⟩
    · show ShadowInv (adjustFreq_u32 r v g).configReg
      rw [adjustFreq_u32_configReg]; exact h
    · exact absurd hcw (fun hc => no_config_words _ (freq_words_not_config r v) w hw hc)
  | adjustFreq_u16 r v =>
    refine ⟨_, adjustFreq_u16_delivers r v g, ?_, fun w hw hcw => ?_⟩
    · show ShadowInv (adjustFreq_u16 r v g).configReg
      rw [adjustFreq_u16_configReg]; exact h
    · exact absurd hcw (fun hc => no_config_words _ (freq_word_not_config r v) w hw hc)

/-- Every state reached from a new driver: the log is a sequence of complete
transactions, the shadow has the shape `ShadowInv`, and every configuration
word in the log is a value of that shape or the reset word `0x0100`. -/
theorem reachable_inv (pin : Int) (ops : List Op) :
    ∃ txs, Delivers (init pin) (runOps ops (init pin)) txs ∧
      ShadowInv (runOps ops (init pin)).configReg ∧
      ∀ w ∈ txs.flatten, isConfigWord w = true → ShadowInv w ∨ w = 0x0100 := by
  induction ops using List.reverseRecOn with
  | nil => exact ⟨[], Delivers.refl _, ShadowInv.zero, fun w hw => absurd hw (by simp)⟩
  | append_singleton ops op ih =>
    obtain ⟨txs, hd, hs, hw⟩ := ih
    obtain ⟨new, hd1, hs1, hw1⟩ := op_inv op (runOps ops (init pin)) hs
    rw [runOps_append]
    refine ⟨txs ++ new, hd.trans hd1, hs1, fun w hmem hc => ?_⟩
    rw [List.flatten_append, List.mem_append] at hmem
    rcases hmem with hm | hm
    · exact hw w hm hc
    · exact hw1 w hm hc

/-! ## C17: the forbidden waveform combination is not reachable -/

/-- C17: starting from a new driver (shadow 0), after every finite sequence of
public operations the shadow does not have bit 5 (OPBITEN) and bit 1 (MODE) set
together, and no configuration-register word sent to the device has both bits
set. -/
theorem forbidden_mode_unreachable (pin : Int) (ops : List Op) :
    ¬((runOps ops (init pin)).configReg.testBit 5 = true
        ∧ (runOps ops (init pin)).configReg.testBit 1 = true) ∧
    ∃ txs, transactions pin (runOps ops (init pin)).bus = some txs ∧
      ∀ w ∈ txs.flatten, isConfigWord w = true →
        ¬(w.testBit 5 = true ∧ w.testBit 1 = true) := by
  obtain ⟨txs, hd, hs, hw⟩ := reachable_inv pin ops
  refine ⟨hs.2.2, txs, hd.to_transactions_init, fun w hmem hc => ?_⟩
  rcases hw w hmem hc with h | h
  · exact h.2.2
  · rw [h]; decide

/-! ## C19: the shadow stays inside the mask `0x3C2A` -/

theorem ShadowInv.mask {s : Nat} (h : ShadowInv s) : s &&& 0x3C2A = s := by
  apply Nat.eq_of_testBit_eq
  intro i
  rw [Nat.testBit_and]
  by_cases hs : s.testBit i = true
  · rw [hs]
    rcases h.1 i hs with rfl | rfl | rfl | rfl | rfl | rfl | rfl <;> decide
  · have hf : s.testBit i = false := by simpa using hs
    rw [hf]
    rfl

theorem ShadowInv.not_13_12 {s : Nat} (h : ShadowInv s) : s &&& 0x3000 ≠ 0x3000 := by
  intro e
  have h13 : (s &&& 0x3000).testBit 13 = true := by rw [e]; decide
  have h12 : (s &&& 0x3000).testBit 12 = true := by rw [e]; decide
  rw [Nat.testBit_and, Bool.and_eq_true] at h13 h12
  exact h.2.1 ⟨h13.1, h12.1⟩

/-- C19: starting from a new driver (shadow 0), after every finite sequence of
public operations the shadow has no bit set outside the mask `0x3C2A` and does
not have bits 13 and 12 set together; so its top two bits are 0, the masking in
`writeConfig` leaves it unchanged, and the one word each mutator then sends is
the new shadow itself. -/
theorem shadow_within_mask (pin : Int) (ops : List Op) :
    (runOps ops (init pin)).configReg &&& 0x3C2A = (runOps ops (init pin)).configReg
    ∧ (runOps ops (init pin)).configReg &&& 0x3000 ≠ 0x3000
    ∧ (runOps ops (init pin)).configReg >>> 14 = 0
    ∧ (runOps ops (init pin)).configReg &&& compl16 0xC000 = (runOps ops (init pin)).configReg
    ∧ (∀ m : MODE, transactions pin (emitted (setMode m) (runOps ops (init pin)))
        = some [[(setMode m (runOps ops (init pin))).configReg]])
    ∧ (∀ r : FREQREG, transactions pin (emitted (selectFreqReg r) (runOps ops (init pin)))
        = some [[(selectFreqReg r (runOps ops (init pin))).configReg]])
    ∧ (∀ r : PHASEREG, transactions pin (emitted (selectPhaseReg r) (runOps ops (init pin)))
        = some [[(selectPhaseReg r (runOps ops (init pin))).configReg]])
    ∧ (∀ m : FREQADJUSTMODE,
        transactions pin (emitted (setFreqAdjustMode m) (runOps ops (init pin)))
        = some [[(setFreqAdjustMode m (runOps ops (init pin))).configReg]]) := by
  obtain ⟨txs, hd, hs, _⟩ := reachable_inv pin ops
  have hpin : (runOps ops (init pin))._FSYNCPin = pin := hd.1
  have hlt := hs.lt
  refine ⟨hs.mask, hs.not_13_12, ?_, ?_, fun m => ?_, fun r => ?_, fun r => ?_, fun m => ?_⟩
  · rw [Nat.shiftRight_eq_div_pow]
    exact Nat.div_eq_of_lt hlt
  · rw [and_compl16_C000]
    omega
  · have d := (setMode_delivers m (runOps ops (init pin))).to_transactions
    rw [hpin, and_3FFF_of_lt (setMode_inv m _ hs).lt] at d
    exact d
  · have d := (selectFreqReg_delivers r (runOps ops (init pin))).to_transactions
    rw [hpin, and_3FFF_of_lt (selectFreqReg_inv r _ hs).lt] at d
    exact d
  · have d := (selectPhaseReg_delivers r (runOps ops (init pin))).to_transactions
    rw [hpin, and_3FFF_of_lt (selectPhaseReg_inv r _ hs).lt] at d
    exact d
  · have d := (setFreqAdjustMode_delivers m (runOps ops (init pin))).to_transactions
    rw [hpin, and_3FFF_of_lt (setFreqAdjustMode_inv m _ hs).lt] at d
    exact d

/-! ## C13: the end-to-end scenario

`selectFreqReg` and the mode change inside `adjustFreq` each write the
configuration register in a transaction of their own, so the scenario sends two
configuration words, not one. -/

/-- C13, counterexample: on a new driver (select pin 10),
`selectFreqReg( FREQ1)` followed by `adjustFreq( FREQ1, FULL, 1000000)` sends
three transactions; two of them, not one, carry a configuration-register word,
and the first of these, `0x0800`, has bits 13:12 = 00, not 10. -/
theorem scenario_two_config_transactions :
    transactions 10 (runOps [Op.selectFreqReg FREQREG.FREQ1,
        Op.adjustFreq_mode_u32 FREQREG.FREQ1 FREQADJUSTMODE.FULL 1000000] (init 10)).bus
      = some [[0x0800], [0x2800], [0x8240, 0x803D]]
    ∧ ([[0x0800], [0x2800], [0x8240, 0x803D]].filter
        (fun ws : List Nat => ws.all isConfigWord)).length = 2
    ∧ ((0x0800 : Nat) >>> 12) % 4 = 0 := by
  refine ⟨?_, by decide, by decide⟩
  decide

/-- C13, amended: on a new driver, `selectFreqReg( FREQ1)` followed by
`adjustFreq( FREQ1, FULL, 1000000)` with the 32-bit value sends, in this order,
a configuration-register transaction with the word `0x0800` (bit 11 set, bits
13:12 = 00), a second configuration-register transaction with the word `0x2800`
(bit 11 set, bits 13:12 = 10), and one transaction of two frequency-register-1
words whose payloads are `1000000 & 0x3FFF` and `(1000000 >> 14) & 0x3FFF`. -/
theorem scenario_trace (pin : Int) :
    transactions pin (runOps [Op.selectFreqReg FREQREG.FREQ1,
        Op.adjustFreq_mode_u32 FREQREG.FREQ1 FREQADJUSTMODE.FULL 1000000] (init pin)).bus
      = some [[0x0800], [0x2800],
          [0x8000 ||| (1000000 &&& 0x3FFF), 0x8000 ||| ((1000000 >>> 14) &&& 0x3FFF)]]
    ∧ isConfigWord 0x0800 = true ∧ (0x0800 : Nat).testBit 11 = true
    ∧ ((0x0800 : Nat) >>> 12) % 4 = 0
    ∧ isConfigWord 0x2800 = true ∧ (0x2800 : Nat).testBit 11 = true
    ∧ ((0x2800 : Nat) >>> 12) % 4 = 2
    ∧ (0x8000 ||| (1000000 &&& 0x3FFF)) >>> 14 = 2
    ∧ (0x8000 ||| ((1000000 >>> 14) &&& 0x3FFF)) >>> 14 = 2
    ∧ (0x8000 ||| (1000000 &&& 0x3FFF)) &&& 0x3FFF = 1000000 &&& 0x3FFF
    ∧ (0x8000 ||| ((1000000 >>> 14) &&& 0x3FFF)) &&& 0x3FFF = (1000000 >>> 14) &&& 0x3FFF := by
  refine ⟨?_, by decide, by decide, by decide, by decide, by decide, by decide, by decide,
    by decide, by decide, by decide⟩
  have d1 := selectFreqReg_delivers FREQREG.FREQ1 (init pin)
  have d2 := adjustFreq_mode_u32_delivers FREQREG.FREQ1 FREQADJUSTMODE.FULL 1000000
    (selectFreqReg FREQREG.FREQ1 (init pin))
  have e1 : (selectFreqReg FREQREG.FREQ1 (init pin)).configReg = 0x0800 := by
    simp [selectFreqReg_configReg, init]
  have e2 : (setFreqAdjustMode FREQADJUSTMODE.FULL
      (selectFreqReg FREQREG.FREQ1 (init pin))).configReg = 0x2800 := by
    rw [setFreqAdjustMode_configReg, e1]
    decide
  rw [e2] at d2
  rw [e1] at d1
  have d := (d1.trans d2).to_transactions_init
  simpa using d

end MiniGen
